import Mathlib

/-
  Verification of the batch-OCR pipeline (src/app.py, src/app2.py, src/ocr_cli.py).

  Shallow embedding conventions:
  * Python strings are modelled as `List Char`.
  * Python's Unicode character classification methods (str.isalpha, str.isspace,
    str.isalnum) are external data; they are modelled by a record of predicates
    `CharClasses`.  For the ASCII fragment the record `asciiClasses` below is the
    exact classification Python uses on ASCII characters.
  * The float comparisons in is_readable_text (`letters < len(text) * 0.4` and
    `weird > len(text) * 0.1`) are modelled by the exact rational comparisons
    5 * letters < 2 * len and 10 * weird > len.  This is exact, not an
    approximation: with IEEE-754 doubles, float(0.4) = 2/5 + 2^-53/5 and
    float(0.1) = 1/10 + 2^-55/5, and for any natural len < 2^53 the rounded
    product len * float(0.4) (resp. len * float(0.1)) is strictly within half an
    ulp of the nearest integer exactly when 2*len/5 (resp. len/10) is that
    integer, so the float comparison against an integer count coincides with the
    exact rational comparison.
  * External effects (PyMuPDF page access, rasterization, the OCR engine, the
    PP-StructureV3 engine) are oracles carried by the page records: each page
    records its embedded text, whether rasterization raises, and what the engine
    invocation does (raise, or return lines).
  * The temporary-image directory (tempfile.gettempdir()) is modelled as a list
    of file names threaded through processing; creating the image conses its
    name, the finally-block's conditional remove is List.erase.
-/

/-- Python's Unicode classification predicates, as used by is_readable_text:
c.isalpha(), c.isspace(), c.isalnum(). -/
structure CharClasses where
  isalpha : Char → Bool
  isspace : Char → Bool
  isalnum : Char → Bool

/-- Membership in the common-punctuation string of app.py line 93 / app2.py
line 85, by character code: . , ; : ! ? ( ) - [ ] left-brace right-brace " '  -/
def commonPunct (c : Char) : Bool :=
  decide (c.toNat ∈ [46, 44, 59, 58, 33, 63, 40, 41, 45, 91, 93, 123, 125, 34, 39])

/-- Count of characters that are neither alphanumeric, nor whitespace, nor
common punctuation (the `weird` count of app.py line 93). -/
def weirdCount (cc : CharClasses) (text : List Char) : Nat :=
  text.countP fun c => !(cc.isalnum c || cc.isspace c || commonPunct c)

/-- Text Quality Filter, app.py lines 87-102 and (identically) app2.py lines
79-94.  The two float comparisons are embedded as exact integer comparisons,
see the header comment. -/
def is_readable_text (cc : CharClasses) (text : List Char) : Bool :=
  if text = [] ∨ text.length < 3 then false
  else if 5 * text.countP cc.isalpha < 2 * text.length then false
  else if text.length < 10 * weirdCount cc text then false
  else if 20 < text.length ∧ text.countP cc.isspace = 0 then false
  else true

/-- Python str.strip(): drop whitespace from both ends. -/
def pyStrip (cc : CharClasses) (s : List Char) : List Char :=
  ((s.dropWhile cc.isspace).reverse.dropWhile cc.isspace).reverse

/-- Python's classification restricted to ASCII: isalpha is A-Z a-z, isspace is
space, tab, LF, VT, FF, CR, isalnum additionally admits the digits 0-9. -/
def asciiClasses : CharClasses where
  isalpha c := (65 ≤ c.toNat ∧ c.toNat ≤ 90) ∨ (97 ≤ c.toNat ∧ c.toNat ≤ 122)
  isspace c := c.toNat = 32 ∨ (9 ≤ c.toNat ∧ c.toNat ≤ 13)
  isalnum c :=
    ((65 ≤ c.toNat ∧ c.toNat ≤ 90) ∨ (97 ≤ c.toNat ∧ c.toNat ≤ 122)) ∨
      (48 ≤ c.toNat ∧ c.toNat ≤ 57)

/-- The Nat-level characterization of rejection by the filter. -/
lemma is_readable_text_eq_false_iff (cc : CharClasses) (s : List Char) :
    is_readable_text cc s = false ↔
      s.length < 3 ∨ 5 * s.countP cc.isalpha < 2 * s.length ∨
        s.length < 10 * weirdCount cc s ∨
        (20 < s.length ∧ s.countP cc.isspace = 0) := by
  unfold is_readable_text
  split_ifs with h1 h2 h3 h4
  · constructor
    · intro _
      left
      rcases h1 with h | h
      · simp [h]
      · exact h
    · intro _
      rfl
  · exact iff_of_true rfl (Or.inr (Or.inl h2))
  · exact iff_of_true rfl (Or.inr (Or.inr (Or.inl h3)))
  · exact iff_of_true rfl (Or.inr (Or.inr (Or.inr h4)))
  · constructor
    · intro h
      simp at h
    · intro h
      rcases h with h | h | h | h
      · exact absurd (Or.inr h) h1
      · exact absurd h h2
      · exact absurd h h3
      · exact absurd h h4

lemma ratioFourTenths (a b : Nat) : ((a : ℚ) < 0.4 * b) ↔ 5 * a < 2 * b := by
  rw [show (0.4 : ℚ) = 2 / 5 by norm_num, div_mul_eq_mul_div,
    lt_div_iff₀ (by norm_num : (0:ℚ) < 5)]
  constructor
  · intro h
    have h5 : (5 * a : ℚ) < 2 * b := by linarith
    exact_mod_cast h5
  · intro h
    have h5 : (5 * a : ℚ) < 2 * b := by exact_mod_cast h
    linarith

lemma ratioOneTenth (w b : Nat) : ((0.1 : ℚ) * b < w) ↔ b < 10 * w := by
  rw [show (0.1 : ℚ) = 1 / 10 by norm_num, div_mul_eq_mul_div, one_mul,
    div_lt_iff₀ (by norm_num : (0:ℚ) < 10)]
  constructor
  · intro h
    have h10 : (b : ℚ) < 10 * w := by linarith
    exact_mod_cast h10
  · intro h
    have h10 : (b : ℚ) < 10 * w := by exact_mod_cast h
    linarith

/-- C4: the Text Quality Filter returns false exactly when the string is empty
or shorter than 3 characters, or its alphabetic-character count is strictly
below 0.4 of its length, or its count of characters outside alphanumeric,
whitespace and the common punctuation set strictly exceeds 0.1 of its length,
or its length exceeds 20 and it contains no whitespace; otherwise it returns
true. -/
theorem claimC4 (cc : CharClasses) (s : List Char) :
    is_readable_text cc s = false ↔
      s.length < 3 ∨ ((s.countP cc.isalpha : ℚ) < 0.4 * s.length) ∨
        ((0.1 : ℚ) * s.length < (weirdCount cc s : ℚ)) ∨
        (20 < s.length ∧ s.countP cc.isspace = 0) := by
  rw [is_readable_text_eq_false_iff, ratioFourTenths, ratioOneTenth]

/-- C5 counterexample: the two-character, entirely alphabetic string "OK" is
rejected by the filter (the claim says it is accepted). -/
theorem claimC5_counterexample :
    is_readable_text asciiClasses ['O', 'K'] = false := by decide

/-- C5 (amended): every string shorter than 3 characters is rejected by the
Text Quality Filter, even when entirely alphabetic; in particular "OK" is
rejected. -/
theorem claimC5 (cc : CharClasses) (s : List Char) (h : s.length < 3) :
    is_readable_text cc s = false :=
  (is_readable_text_eq_false_iff cc s).mpr (Or.inl h)

theorem claimC5_witness :
    (['O', 'K'] : List Char).length < 3 ∧
      is_readable_text asciiClasses ['O', 'K'] = false :=
  ⟨by decide, claimC5 asciiClasses ['O', 'K'] (by decide)⟩

/-- C6 counterexample: a length-20 string in which exactly half the characters
are punctuation characters (all from the common set) and the other half are
alphabetic is accepted by the filter, while the claim says every such string is
rejected. -/
theorem claimC6_counterexample :
    (['a', '.', 'b', '.', 'c', '.', 'd', '.', 'e', '.',
      'f', '.', 'g', '.', 'h', '.', 'i', '.', 'j', '.'] : List Char).length = 20 ∧
      (['a', '.', 'b', '.', 'c', '.', 'd', '.', 'e', '.',
        'f', '.', 'g', '.', 'h', '.', 'i', '.', 'j', '.'] : List Char).countP
          asciiClasses.isalpha = 10 ∧
      (['a', '.', 'b', '.', 'c', '.', 'd', '.', 'e', '.',
        'f', '.', 'g', '.', 'h', '.', 'i', '.', 'j', '.'] : List Char).countP
          commonPunct = 10 ∧
      is_readable_text asciiClasses
        ['a', '.', 'b', '.', 'c', '.', 'd', '.', 'e', '.',
         'f', '.', 'g', '.', 'h', '.', 'i', '.', 'j', '.'] = true := by
  refine ⟨by decide, by decide, by decide, by decide⟩

/-- C6 (amended): a length-20 string half of whose characters are symbols
outside the allowed classes (alphanumeric, whitespace, common punctuation) is
rejected by the filter; rejection of a 50 percent punctuation/symbol string
holds only when the symbols fall outside the common punctuation set. -/
theorem claimC6 (cc : CharClasses) (s : List Char) (hlen : s.length = 20)
    (hweird : weirdCount cc s = 10) : is_readable_text cc s = false := by
  apply (is_readable_text_eq_false_iff cc s).mpr
  right; right; left
  omega

theorem claimC6_witness :
    (['@', '@', '@', '@', '@', '@', '@', '@', '@', '@',
      'a', 'b', 'c', 'd', 'e', 'f', 'g', 'h', 'i', 'j'] : List Char).length = 20 ∧
      weirdCount asciiClasses
        ['@', '@', '@', '@', '@', '@', '@', '@', '@', '@',
         'a', 'b', 'c', 'd', 'e', 'f', 'g', 'h', 'i', 'j'] = 10 ∧
      is_readable_text asciiClasses
        ['@', '@', '@', '@', '@', '@', '@', '@', '@', '@',
         'a', 'b', 'c', 'd', 'e', 'f', 'g', 'h', 'i', 'j'] = false :=
  ⟨by decide, by decide,
    claimC6 asciiClasses _ (by decide) (by decide)⟩

instance {α β : Type} [DecidableEq α] [DecidableEq β] : DecidableEq (Except α β) := fun x y =>
  match x, y with
  | .error a, .error b => if h : a = b then .isTrue (by rw [h]) else .isFalse (by simp [h])
  | .ok a, .ok b => if h : a = b then .isTrue (by rw [h]) else .isFalse (by simp [h])
  | .error _, .ok _ => .isFalse (by simp)
  | .ok _, .error _ => .isFalse (by simp)

/-- Per-page extraction method tags, the `method` values of app.py lines
132/157/159/162 and app2.py lines 163/182. -/
inductive Method
  | embedded
  | ocr
  | ocrEmpty
  | error
  deriving DecidableEq

/-- One entry of app.py's page_results list: page index (1-based), method,
and for method error the exception detail. -/
structure Outcome where
  page : Nat
  method : Method
  errDetail : Option (List Char)
  deriving DecidableEq

/-- Behavior of one external engine invocation on a page image: the call
either raises (with a message) or returns a list of results. -/
inductive OcrCall
  | raise (msg : List Char)
  | lines (out : List (List Char))
  deriving DecidableEq

/-- Oracle describing one PDF page for app.py: its embedded text
(page.get_text() before stripping), whether get_pixmap/save raises and with
what message, and what the OCR invocation (Image.open + predict/ocr) does. -/
structure Page where
  embedded : List Char
  rasterErr : Option (List Char)
  ocrCall : OcrCall
  deriving DecidableEq

/-- A file name (or path segment): a Python string. -/
abbrev Seg := List Char

def seg (s : String) : Seg := s.data

def natChars (n : Nat) : List Char := Nat.toDigits 10 n

/-- Temp image name of app.py line 136. -/
def tmpClassic (pid idx : Nat) : Seg :=
  seg "ocr_" ++ natChars pid ++ seg "_" ++ natChars idx ++ seg ".png"

/-- Temp image name of app2.py line 140. -/
def tmpStruct (pid idx : Nat) : Seg :=
  seg "doc_" ++ natChars pid ++ seg "_" ++ natChars idx ++ seg ".png"

def joinNL (xs : List (List Char)) : List Char := List.intercalate ['\n'] xs

def joinBlank (xs : List (List Char)) : List Char :=
  List.intercalate ['\n', '\n'] xs

/-- The embedded-text acceptance condition of app.py line 129:
not force_ocr and embedded and len(embedded) >= min_embedded_chars and
is_readable_text(embedded), where embedded is the stripped page text. -/
def acceptEmbedded (force : Bool) (minChars : Nat) (cc : CharClasses) (pg : Page) : Bool :=
  !force && !(pyStrip cc pg.embedded).isEmpty &&
    decide (minChars ≤ (pyStrip cc pg.embedded).length) &&
    is_readable_text cc (pyStrip cc pg.embedded)

/-- Result of one iteration of app.py's page loop (lines 122-165):
res is the recorded (method, contributed text, error detail) or, when the
loop body raises outside the inner try (rasterization), the propagating
exception; ocrCalls counts OCR-engine invocations (a raising invocation
counts as attempted); disk is the temp directory after the iteration. -/
structure PageRun where
  res : Except (List Char) (Method × Option (List Char) × Option (List Char))
  ocrCalls : Nat
  disk : List Seg
  deriving DecidableEq

/-- One iteration of the page loop of app.py lines 122-165.  Creating the
temp image conses its name onto disk; the finally-block's conditional remove
is List.erase (a no-op when absent, exactly like the exists-guarded
os.remove). -/
def classicPage (force : Bool) (minChars : Nat) (cc : CharClasses) (pid idx : Nat)
    (pg : Page) (disk : List Seg) : PageRun :=
  if acceptEmbedded force minChars cc pg then
    { res := .ok (.embedded, some (pyStrip cc pg.embedded), none), ocrCalls := 0, disk := disk }
  else
    match pg.rasterErr with
    | some m => { res := .error m, ocrCalls := 0, disk := disk }
    | none =>
      match pg.ocrCall with
      | .raise e =>
          { res := .ok (.error, none, some e), ocrCalls := 1,
            disk := (tmpClassic pid idx :: disk).erase (tmpClassic pid idx) }
      | .lines ls =>
          if (ls.filter (is_readable_text cc)) ≠ [] then
            { res := .ok (.ocr, some (joinNL (ls.filter (is_readable_text cc))), none),
              ocrCalls := 1,
              disk := (tmpClassic pid idx :: disk).erase (tmpClassic pid idx) }
          else
            { res := .ok (.ocrEmpty, none, none), ocrCalls := 1,
              disk := (tmpClassic pid idx :: disk).erase (tmpClassic pid idx) }

/-- The page loop of app.py lines 122-165: accumulates contributed texts
(all_text) and page outcomes (page_results) in page order; a rasterization
exception propagates and aborts the whole document. -/
def classicLoop (force : Bool) (minChars : Nat) (cc : CharClasses) (pid : Nat) :
    List Page → Nat → List Seg →
      Except (List Char) (List (List Char) × List Outcome) × List Seg
  | [], _, disk => (.ok ([], []), disk)
  | pg :: rest, idx, disk =>
    let r := classicPage force minChars cc pid idx pg disk
    match r.res with
    | .error m => (.error m, r.disk)
    | .ok (meth, txt, ed) =>
      match classicLoop force minChars cc pid rest (idx + 1) r.disk with
      | (.error m, disk') => (.error m, disk')
      | (.ok (texts, outs), disk') =>
        (.ok (match txt with
              | some t => t :: texts
              | none => texts,
              { page := idx + 1, method := meth, errDetail := ed } :: outs), disk')

/-- Document-level result of ocr_pdf_file: the success dict (filename is
implicit) or the error dict (the traceback string is not modelled). -/
inductive DocResult
  | ok (totalPages : Nat) (fullText : List Char) (pages : List Outcome)
  | err (msg : List Char)
  deriving DecidableEq

/-- app.py lines 108-189, ocr_pdf_file: doc is the fitz.open outcome (error
means the open raised); on success the pages are processed in order and the
accepted texts joined with a blank line. -/
def ocr_pdf_file (force : Bool) (minChars : Nat) (cc : CharClasses) (pid : Nat)
    (doc : Except (List Char) (List Page)) (disk : List Seg) : DocResult × List Seg :=
  match doc with
  | .error m => (.err m, disk)
  | .ok pages =>
    match classicLoop force minChars cc pid pages 0 disk with
    | (.error m, disk') => (.err m, disk')
    | (.ok (texts, outs), disk') => (.ok pages.length (joinBlank texts) outs, disk')

/-- Oracle describing one PDF page for app2.py: embedded text, rasterization
behavior, the PP-StructureV3 invocation (lines = identifiers of the results
it yields; the engine-chosen artifact base names), and the OCR invocation. -/
structure Page2 where
  embedded : List Char
  rasterErr : Option (List Char)
  structCall : OcrCall
  ocrCall : OcrCall
  deriving DecidableEq

/-- Result of one iteration of app2.py's page loop: on success, the struct
artifact file names saved for this page and (when export_txt) the recorded
(method, contributed text); on a propagating exception, the message together
with the struct artifacts the page had already saved before raising. -/
structure Page2Run where
  res : Except (List Char × List Seg) (List Seg × Option (Method × Option (List Char)))
  ocrCalls : Nat
  disk : List Seg
  deriving DecidableEq

/-- Artifact file names saved by app2.py lines 152-156 for one page: for each
result yielded by the structure engine, a .json and/or .md file (the engine
chooses base names; they are the oracle's identifiers). -/
def structArtifacts (exportJson exportMd : Bool) (names : List (List Char)) : List Seg :=
  names.flatMap fun n =>
    (if exportJson then [n ++ seg ".json"] else []) ++
      (if exportMd then [n ++ seg ".md"] else [])

/-- The plain-text half of app2.py's page body (lines 158-186), entered with
the temp image on disk; writes are the struct artifacts already saved in this
iteration.  Embedded acceptance here is len(embedded) > 50 with no
readability check (app2.py line 160). -/
def structText (force exportTxt : Bool) (cc : CharClasses) (pg : Page2)
    (writes : List Seg) (img : Seg) (disk : List Seg) : Page2Run :=
  if exportTxt then
    if !force && !(pyStrip cc pg.embedded).isEmpty &&
        decide (50 < (pyStrip cc pg.embedded).length) then
      { res := .ok (writes, some (.embedded, some (pyStrip cc pg.embedded))),
        ocrCalls := 0, disk := disk.erase img }
    else
      match pg.ocrCall with
      | .raise e => { res := .error (e, writes), ocrCalls := 1, disk := disk.erase img }
      | .lines ls =>
          if joinNL (ls.filter (is_readable_text cc)) ≠ [] then
            { res := .ok (writes, some (.ocr, some (joinNL (ls.filter (is_readable_text cc))))),
              ocrCalls := 1, disk := disk.erase img }
          else
            { res := .ok (writes, some (.ocrEmpty, none)), ocrCalls := 1,
              disk := disk.erase img }
  else { res := .ok (writes, none), ocrCalls := 0, disk := disk.erase img }

/-- One iteration of app2.py's page loop (lines 131-190): rasterization
happens unconditionally before the try block; inside the try, structure
export runs first (when requested), then the plain-text branch; there is no
per-page except, so any exception propagates after the finally removes the
temp image. -/
def structPage (force exportTxt exportJson exportMd : Bool) (cc : CharClasses)
    (pid idx : Nat) (pg : Page2) (disk : List Seg) : Page2Run :=
  match pg.rasterErr with
  | some m => { res := .error (m, []), ocrCalls := 0, disk := disk }
  | none =>
    if exportJson || exportMd then
      match pg.structCall with
      | .raise e =>
          { res := .error (e, []), ocrCalls := 0,
            disk := (tmpStruct pid idx :: disk).erase (tmpStruct pid idx) }
      | .lines names =>
          structText force exportTxt cc pg (structArtifacts exportJson exportMd names)
            (tmpStruct pid idx) (tmpStruct pid idx :: disk)
    else structText force exportTxt cc pg [] (tmpStruct pid idx) (tmpStruct pid idx :: disk)

lemma classicPage_disk (force : Bool) (minChars : Nat) (cc : CharClasses) (pid idx : Nat)
    (pg : Page) (disk : List Seg) :
    (classicPage force minChars cc pid idx pg disk).disk = disk := by
  rcases pg with ⟨emb, rErr, oc⟩
  unfold classicPage
  split
  · rfl
  · rcases rErr with _ | m
    · rcases oc with e | ls
      · simp [List.erase_cons_head]
      · dsimp only
        split <;> simp [List.erase_cons_head]
    · rfl

lemma structText_disk (force exportTxt : Bool) (cc : CharClasses) (pg : Page2)
    (writes : List Seg) (img : Seg) (disk : List Seg) :
    (structText force exportTxt cc pg writes img disk).disk = disk.erase img := by
  rcases pg with ⟨emb, rErr, sc, oc⟩
  unfold structText
  split
  · split
    · rfl
    · rcases oc with e | ls
      · rfl
      · dsimp only
        split <;> rfl
  · rfl

lemma structPage_disk (force exportTxt exportJson exportMd : Bool) (cc : CharClasses)
    (pid idx : Nat) (pg : Page2) (disk : List Seg) :
    (structPage force exportTxt exportJson exportMd cc pid idx pg disk).disk = disk := by
  rcases pg with ⟨emb, rErr, sc, oc⟩
  unfold structPage
  rcases rErr with _ | m
  · dsimp only
    split
    · rcases sc with e | names
      · simp [List.erase_cons_head]
      · rw [structText_disk]
        simp [List.erase_cons_head]
    · rw [structText_disk]
      simp [List.erase_cons_head]
  · rfl

/-- C9: processing a page leaves the temporary-image directory exactly as it
was on every exit path (success, empty OCR result, recorded error, or a
propagating exception), in both the classic and the structured pipeline: the
rasterized image created during the iteration is always deleted. -/
theorem claimC9 (force : Bool) (minChars : Nat) (cc : CharClasses) (pid idx : Nat)
    (pg : Page) (disk : List Seg) (force2 exportTxt exportJson exportMd : Bool)
    (pid2 idx2 : Nat) (pg2 : Page2) (disk2 : List Seg) :
    (classicPage force minChars cc pid idx pg disk).disk = disk ∧
      (structPage force2 exportTxt exportJson exportMd cc pid2 idx2 pg2 disk2).disk = disk2 :=
  ⟨classicPage_disk force minChars cc pid idx pg disk,
    structPage_disk force2 exportTxt exportJson exportMd cc pid2 idx2 pg2 disk2⟩

/-- Did the page-loop iteration record method embedded? -/
def wentEmbedded : Except (List Char) (Method × Option (List Char) × Option (List Char)) → Bool
  | .ok (.embedded, _, _) => true
  | _ => false

/-- Did the app2 page-loop iteration record method embedded? -/
def wentEmbedded2 :
    Except (List Char × List Seg) (List Seg × Option (Method × Option (List Char))) → Bool
  | .ok (_, some (.embedded, _)) => true
  | _ => false

lemma is_readable_text_nil (cc : CharClasses) : is_readable_text cc [] = false := by
  simp [is_readable_text]

lemma acceptEmbedded_true_iff (minChars : Nat) (cc : CharClasses) (pg : Page) :
    acceptEmbedded false minChars cc pg = true ↔
      minChars ≤ (pyStrip cc pg.embedded).length ∧
        is_readable_text cc (pyStrip cc pg.embedded) = true := by
  unfold acceptEmbedded
  simp only [Bool.not_false, Bool.true_and, Bool.and_eq_true, Bool.not_eq_true',
    decide_eq_true_eq]
  constructor
  · rintro ⟨⟨_, hlen⟩, hread⟩
    exact ⟨hlen, hread⟩
  · rintro ⟨hlen, hread⟩
    refine ⟨⟨?_, hlen⟩, hread⟩
    by_cases h : pyStrip cc pg.embedded = []
    · rw [h, is_readable_text_nil] at hread
      exact absurd hread (by simp)
    · simp [List.isEmpty_iff, h]

lemma wentEmbedded_classicPage (force : Bool) (minChars : Nat) (cc : CharClasses)
    (pid idx : Nat) (pg : Page) (disk : List Seg) :
    wentEmbedded (classicPage force minChars cc pid idx pg disk).res =
      acceptEmbedded force minChars cc pg := by
  rcases pg with ⟨emb, rErr, oc⟩
  unfold classicPage
  by_cases h : acceptEmbedded force minChars cc ⟨emb, rErr, oc⟩ = true
  · simp [h, wentEmbedded]
  · rw [Bool.not_eq_true] at h
    simp only [h, Bool.false_eq_true, if_false]
    rcases rErr with _ | m
    · rcases oc with e | ls
      · simp [wentEmbedded]
      · dsimp only
        split <;> simp [wentEmbedded]
    · simp [wentEmbedded]

lemma classicPage_ocrCalls_zero (force : Bool) (minChars : Nat) (cc : CharClasses)
    (pid idx : Nat) (pg : Page) (disk : List Seg)
    (h : acceptEmbedded force minChars cc pg = true) :
    (classicPage force minChars cc pid idx pg disk).ocrCalls = 0 := by
  unfold classicPage
  simp [h]

lemma classicPage_ocrCalls_one (force : Bool) (minChars : Nat) (cc : CharClasses)
    (pid idx : Nat) (pg : Page) (disk : List Seg)
    (h : acceptEmbedded force minChars cc pg = false) (hr : pg.rasterErr = none) :
    (classicPage force minChars cc pid idx pg disk).ocrCalls = 1 := by
  rcases pg with ⟨emb, rErr, oc⟩
  simp only at hr
  subst hr
  unfold classicPage
  simp only [h, Bool.false_eq_true, if_false]
  rcases oc with e | ls
  · rfl
  · dsimp only
    split <;> rfl

lemma wentEmbedded2_structPage (cc : CharClasses) (pid idx : Nat) (pg2 : Page2)
    (disk : List Seg) :
    wentEmbedded2 (structPage false true false false cc pid idx pg2 disk).res = true ↔
      (pg2.rasterErr = none ∧ 50 < (pyStrip cc pg2.embedded).length) := by
  rcases pg2 with ⟨emb, rErr, sc, oc⟩
  unfold structPage
  rcases rErr with _ | m
  · rw [if_neg (by simp : ¬((false || false : Bool) = true))]
    unfold structText
    rw [if_pos rfl]
    by_cases hlen : 50 < (pyStrip cc emb).length
    · have hne : pyStrip cc emb ≠ [] := by
        intro h
        rw [h] at hlen
        simp at hlen
      have hcond : (!false && !(pyStrip cc emb).isEmpty &&
          decide (50 < (pyStrip cc emb).length)) = true := by
        simp [hlen, List.isEmpty_iff, hne]
      rw [if_pos hcond]
      simp [wentEmbedded2, hlen]
    · have hc : ¬((!false && !(pyStrip cc emb).isEmpty &&
          decide (50 < (pyStrip cc emb).length)) = true) := by
        simp [hlen]
      rw [if_neg hc]
      rcases oc with e | ls
      · simp [wentEmbedded2, hlen]
      · dsimp only
        split <;> simp [wentEmbedded2, hlen]
  · simp [wentEmbedded2]

/-- C3 (amended): in the classic app (ocr_pdf_file), with force-OCR false a
page's embedded text is accepted (method embedded) iff its trimmed length is
at least min_embedded_chars and it passes the Text Quality Filter; on
acceptance the OCR engine is not invoked, and when the trimmed text is
shorter than the threshold (and rasterization succeeds) it is invoked exactly
once.  In the structured app (process_pdf), embedded text is accepted iff its
trimmed length strictly exceeds the fixed bound 50, with no quality-filter
check. -/
theorem claimC3 (minChars : Nat) (cc : CharClasses) (pid idx : Nat) (pg : Page)
    (disk : List Seg) (pid2 idx2 : Nat) (pg2 : Page2) (disk2 : List Seg) :
    (wentEmbedded (classicPage false minChars cc pid idx pg disk).res = true ↔
        minChars ≤ (pyStrip cc pg.embedded).length ∧
          is_readable_text cc (pyStrip cc pg.embedded) = true) ∧
      (wentEmbedded (classicPage false minChars cc pid idx pg disk).res = true →
        (classicPage false minChars cc pid idx pg disk).ocrCalls = 0) ∧
      (pg.rasterErr = none → (pyStrip cc pg.embedded).length < minChars →
        (classicPage false minChars cc pid idx pg disk).ocrCalls = 1) ∧
      (wentEmbedded2 (structPage false true false false cc pid2 idx2 pg2 disk2).res = true ↔
        (pg2.rasterErr = none ∧ 50 < (pyStrip cc pg2.embedded).length)) := by
  refine ⟨?_, ?_, ?_, wentEmbedded2_structPage cc pid2 idx2 pg2 disk2⟩
  · rw [wentEmbedded_classicPage]
    exact acceptEmbedded_true_iff minChars cc pg
  · intro h
    rw [wentEmbedded_classicPage] at h
    exact classicPage_ocrCalls_zero false minChars cc pid idx pg disk h
  · intro hr hlen
    apply classicPage_ocrCalls_one false minChars cc pid idx pg disk _ hr
    apply Bool.eq_false_iff.mpr
    intro h
    exact absurd ((acceptEmbedded_true_iff minChars cc pg).mp h).1 (by omega)

/-- C3 counterexample: in the structured app a 51-character embedded string of
at-signs, which fails the Text Quality Filter, is nevertheless accepted with
method embedded. -/
theorem claimC3_counterexample :
    wentEmbedded2 (structPage false true false false asciiClasses 0 0
        ⟨List.replicate 51 '@', none, .lines [], .lines []⟩ []).res = true ∧
      is_readable_text asciiClasses
        (pyStrip asciiClasses (List.replicate 51 '@')) = false := by
  exact ⟨by decide, by decide⟩

theorem claimC3_witness :
    (classicPage false 3 asciiClasses 0 0 ⟨seg "abcd", none, .lines []⟩ []).ocrCalls = 0 ∧
      (classicPage false 300 asciiClasses 0 0 ⟨seg "abcd", none, .lines []⟩ []).ocrCalls = 1 :=
  ⟨(claimC3 3 asciiClasses 0 0 ⟨seg "abcd", none, .lines []⟩ [] 0 0
      ⟨[], none, .lines [], .lines []⟩ []).2.1 (by decide),
    (claimC3 300 asciiClasses 0 0 ⟨seg "abcd", none, .lines []⟩ [] 0 0
      ⟨[], none, .lines [], .lines []⟩ []).2.2.1 rfl (by decide)⟩

/-- The per-page record produced by the loop body, which depends only on the
page oracle and the policy (not on pid, page index or temp-dir contents). -/
def pageRes (force : Bool) (minChars : Nat) (cc : CharClasses) (pg : Page) :
    Except (List Char) (Method × Option (List Char) × Option (List Char)) :=
  (classicPage force minChars cc 0 0 pg []).res

/-- Does processing this page raise out of the loop body (rasterization
failure on a page whose embedded text is not accepted)? -/
def pageRaises (force : Bool) (minChars : Nat) (cc : CharClasses) (pg : Page) : Bool :=
  match pageRes force minChars cc pg with
  | .error _ => true
  | .ok _ => false

lemma classicPage_res (force : Bool) (minChars : Nat) (cc : CharClasses)
    (pid idx : Nat) (pg : Page) (disk : List Seg) :
    (classicPage force minChars cc pid idx pg disk).res = pageRes force minChars cc pg := by
  rcases pg with ⟨emb, rErr, oc⟩
  unfold pageRes classicPage
  by_cases h : acceptEmbedded force minChars cc ⟨emb, rErr, oc⟩ = true
  · simp [h]
  · rw [Bool.not_eq_true] at h
    simp only [h, Bool.false_eq_true, if_false]
    rcases rErr with _ | m
    · rcases oc with e | ls
      · rfl
      · dsimp only
        split <;> rfl
    · rfl

lemma classicLoop_no_raise (force : Bool) (minChars : Nat) (cc : CharClasses) (pid : Nat) :
    ∀ (l : List Page) (idx : Nat) (disk : List Seg),
      (∀ q ∈ l, pageRaises force minChars cc q = false) →
      ∃ t o, (classicLoop force minChars cc pid l idx disk).1 = .ok (t, o) := by
  intro l
  induction l with
  | nil =>
    intro idx disk _
    exact ⟨[], [], rfl⟩
  | cons pg rest ih =>
    intro idx disk h
    have hq := h pg (List.mem_cons_self pg rest)
    unfold classicLoop
    simp only [classicPage_res, classicPage_disk]
    cases hres : pageRes force minChars cc pg with
    | error m =>
      unfold pageRaises at hq
      rw [hres] at hq
      simp at hq
    | ok trip =>
      obtain ⟨meth, txt, ed⟩ := trip
      obtain ⟨t, o, ht⟩ := ih (idx + 1) disk (fun q hqm => h q (List.mem_cons_of_mem pg hqm))
      rcases hsplit : classicLoop force minChars cc pid rest (idx + 1) disk with ⟨res', disk'⟩
      rw [hsplit] at ht
      have ht' : res' = .ok (t, o) := ht
      subst ht'
      cases txt with
      | some tx => exact ⟨tx :: t, ⟨idx + 1, meth, ed⟩ :: o, rfl⟩
      | none => exact ⟨t, ⟨idx + 1, meth, ed⟩ :: o, rfl⟩

lemma classicLoop_append_ok (force : Bool) (minChars : Nat) (cc : CharClasses) (pid : Nat) :
    ∀ (xs ys : List Page) (idx : Nat) (disk : List Seg) (t o t' o' : _),
      (classicLoop force minChars cc pid xs idx disk).1 = .ok (t, o) →
      (classicLoop force minChars cc pid ys (idx + xs.length) disk).1 = .ok (t', o') →
      (classicLoop force minChars cc pid (xs ++ ys) idx disk).1 = .ok (t ++ t', o ++ o') := by
  intro xs
  induction xs with
  | nil =>
    intro ys idx disk t o t' o' hxs hys
    have hxs' : Except.ok (ε := List Char) ([], ([] : List Outcome)) = .ok (t, o) := hxs
    injection hxs' with hp
    injection hp with h1 h2
    subst h1
    subst h2
    simp only [List.length_nil, Nat.add_zero] at hys
    simpa using hys
  | cons pg rest ih =>
    intro ys idx disk t o t' o' hxs hys
    rw [List.cons_append]
    unfold classicLoop at hxs ⊢
    simp only [classicPage_res, classicPage_disk] at hxs ⊢
    cases hres : pageRes force minChars cc pg with
    | error m =>
      rw [hres] at hxs
      simp at hxs
    | ok trip =>
      obtain ⟨meth, txt, ed⟩ := trip
      rw [hres] at hxs
      rcases hsplit : classicLoop force minChars cc pid rest (idx + 1) disk with ⟨res', disk'⟩
      rw [hsplit] at hxs
      cases res' with
      | error m => simp at hxs
      | ok pr =>
        obtain ⟨ts, os⟩ := pr
        have hys' : (classicLoop force minChars cc pid ys (idx + 1 + rest.length) disk).1 =
            .ok (t', o') := by
          have harr : idx + (pg :: rest).length = idx + 1 + rest.length := by
            simp only [List.length_cons]
            omega
          rw [harr] at hys
          exact hys
        have hrec := ih ys (idx + 1) disk ts os t' o' (by rw [hsplit]) hys'
        rcases hsplit2 : classicLoop force minChars cc pid (rest ++ ys) (idx + 1) disk
          with ⟨res2, disk2⟩
        rw [hsplit2] at hrec
        have hrec2 : res2 = .ok (ts ++ t', os ++ o') := hrec
        subst hrec2
        cases txt with
        | some tx =>
          have hxs' : Except.ok (ε := List Char)
              (tx :: ts, (⟨idx + 1, meth, ed⟩ : Outcome) :: os) = .ok (t, o) := hxs
          injection hxs' with hp
          injection hp with h1 h2
          rw [← h1, ← h2]
          simp
        | none =>
          have hxs' : Except.ok (ε := List Char)
              (ts, (⟨idx + 1, meth, ed⟩ : Outcome) :: os) = .ok (t, o) := hxs
          injection hxs' with hp
          injection hp with h1 h2
          rw [← h1, ← h2]
          simp

lemma pageRes_ocr_raise (force : Bool) (minChars : Nat) (cc : CharClasses) (pg : Page)
    (msg : List Char) (hacc : acceptEmbedded force minChars cc pg = false)
    (hrast : pg.rasterErr = none) (hocr : pg.ocrCall = .raise msg) :
    pageRes force minChars cc pg = .ok (.error, none, some msg) := by
  rcases pg with ⟨emb, rErr, oc⟩
  simp only at hrast hocr
  subst hrast
  subst hocr
  unfold pageRes classicPage
  simp only [hacc, Bool.false_eq_true, if_false]

lemma ocr_pdf_file_ok_of_loop (force : Bool) (minChars : Nat) (cc : CharClasses)
    (pid : Nat) (pages : List Page) (disk : List Seg) (t : List (List Char))
    (o : List Outcome) (h : (classicLoop force minChars cc pid pages 0 disk).1 = .ok (t, o)) :
    (ocr_pdf_file force minChars cc pid (.ok pages) disk).1 =
      .ok pages.length (joinBlank t) o := by
  have hred : ocr_pdf_file force minChars cc pid (.ok pages) disk =
      (match classicLoop force minChars cc pid pages 0 disk with
        | (.error m, disk') => (DocResult.err m, disk')
        | (.ok (texts, outs), disk') =>
          (DocResult.ok pages.length (joinBlank texts) outs, disk')) := rfl
  rw [hred]
  rcases hsplit : classicLoop force minChars cc pid pages 0 disk with ⟨res', disk'⟩
  rw [hsplit] at h
  have h2 : res' = .ok (t, o) := h
  subst h2
  rfl

lemma ocr_pdf_file_err_of_loop (force : Bool) (minChars : Nat) (cc : CharClasses)
    (pid : Nat) (pages : List Page) (disk : List Seg) (m : List Char)
    (h : (classicLoop force minChars cc pid pages 0 disk).1 = .error m) :
    (ocr_pdf_file force minChars cc pid (.ok pages) disk).1 = .err m := by
  have hred : ocr_pdf_file force minChars cc pid (.ok pages) disk =
      (match classicLoop force minChars cc pid pages 0 disk with
        | (.error m, disk') => (DocResult.err m, disk')
        | (.ok (texts, outs), disk') =>
          (DocResult.ok pages.length (joinBlank texts) outs, disk')) := rfl
  rw [hred]
  rcases hsplit : classicLoop force minChars cc pid pages 0 disk with ⟨res', disk'⟩
  rw [hsplit] at h
  have h2 : res' = .error m := h
  subst h2
  rfl

/-- C1 (amended): in the classic app, a page whose OCR invocation raises (after
a successful rasterization) gets outcome method error carrying the detail and
contributes no text, sibling pages are processed normally, and the document
result is still OK with the full page count.  (A rasterization failure, by
contrast, aborts the whole document: see the counterexample; and in the
structured app any per-page exception aborts the document.) -/
theorem claimC1 (force : Bool) (minChars : Nat) (cc : CharClasses) (pid : Nat)
    (pre post : List Page) (pg : Page) (msg : List Char) (disk : List Seg)
    (hpre : ∀ q ∈ pre, pageRaises force minChars cc q = false)
    (hpost : ∀ q ∈ post, pageRaises force minChars cc q = false)
    (hacc : acceptEmbedded force minChars cc pg = false)
    (hrast : pg.rasterErr = none)
    (hocr : pg.ocrCall = .raise msg) :
    ∃ tpre opre tpost opost,
      (classicLoop force minChars cc pid pre 0 disk).1 = .ok (tpre, opre) ∧
        (classicLoop force minChars cc pid post (pre.length + 1) disk).1 = .ok (tpost, opost) ∧
        (ocr_pdf_file force minChars cc pid (.ok (pre ++ pg :: post)) disk).1 =
          .ok (pre ++ pg :: post).length (joinBlank (tpre ++ tpost))
            (opre ++ (⟨pre.length + 1, .error, some msg⟩ : Outcome) :: opost) := by
  obtain ⟨tpre, opre, hpre'⟩ := classicLoop_no_raise force minChars cc pid pre 0 disk hpre
  obtain ⟨tpost, opost, hpost'⟩ :=
    classicLoop_no_raise force minChars cc pid post (pre.length + 1) disk hpost
  refine ⟨tpre, opre, tpost, opost, hpre', hpost', ?_⟩
  have hpgres := pageRes_ocr_raise force minChars cc pg msg hacc hrast hocr
  have hmid : (classicLoop force minChars cc pid (pg :: post) pre.length disk).1 =
      .ok (tpost, (⟨pre.length + 1, .error, some msg⟩ : Outcome) :: opost) := by
    unfold classicLoop
    simp only [classicPage_res, classicPage_disk, hpgres]
    rcases hsplit : classicLoop force minChars cc pid post (pre.length + 1) disk
      with ⟨res', disk'⟩
    have hp2 := hpost'
    rw [hsplit] at hp2
    have h2 : res' = .ok (tpost, opost) := hp2
    subst h2
    rfl
  have hall := classicLoop_append_ok force minChars cc pid pre (pg :: post) 0 disk tpre opre
    tpost ((⟨pre.length + 1, .error, some msg⟩ : Outcome) :: opost) hpre'
    (by rw [Nat.zero_add]; exact hmid)
  exact ocr_pdf_file_ok_of_loop force minChars cc pid (pre ++ pg :: post) disk
    (tpre ++ tpost) (opre ++ (⟨pre.length + 1, .error, some msg⟩ : Outcome) :: opost) hall

/-- C1 counterexample: a three-page document whose middle page raises during
rasterization does not produce an OK result with page 2 marked error, as the
claim states; the exception escapes the per-page handling and the whole
document is reported failed. -/
theorem claimC1_counterexample :
    (ocr_pdf_file false 3 asciiClasses 0
        (.ok [⟨seg "abc", none, .lines []⟩,
              ⟨[], some (seg "boom"), .lines []⟩,
              ⟨seg "abc", none, .lines []⟩]) []).1 = .err (seg "boom") := by
  decide

theorem claimC1_witness :
    (∀ q ∈ [(⟨seg "abc", none, .lines []⟩ : Page)],
        pageRaises false 3 asciiClasses q = false) ∧
      (∀ q ∈ [(⟨seg "abc", none, .lines []⟩ : Page)],
        pageRaises false 3 asciiClasses q = false) ∧
      acceptEmbedded false 3 asciiClasses ⟨[], none, .raise (seg "oops")⟩ = false ∧
      (⟨[], none, .raise (seg "oops")⟩ : Page).rasterErr = none ∧
      (⟨[], none, .raise (seg "oops")⟩ : Page).ocrCall = .raise (seg "oops") ∧
      ∃ tpre opre tpost opost,
        (classicLoop false 3 asciiClasses 0 [⟨seg "abc", none, .lines []⟩] 0 []).1 =
          .ok (tpre, opre) ∧
          (classicLoop false 3 asciiClasses 0 [⟨seg "abc", none, .lines []⟩] 2 []).1 =
            .ok (tpost, opost) ∧
          (ocr_pdf_file false 3 asciiClasses 0
              (.ok ([⟨seg "abc", none, .lines []⟩] ++
                ⟨[], none, .raise (seg "oops")⟩ :: [⟨seg "abc", none, .lines []⟩])) []).1 =
            .ok ([(⟨seg "abc", none, .lines []⟩ : Page)] ++
                (⟨[], none, .raise (seg "oops")⟩ : Page) :: [⟨seg "abc", none, .lines []⟩]).length
              (joinBlank (tpre ++ tpost))
              (opre ++ (⟨2, .error, some (seg "oops")⟩ : Outcome) :: opost) :=
  ⟨by decide, by decide, by decide, rfl, rfl,
    claimC1 false 3 asciiClasses 0 [⟨seg "abc", none, .lines []⟩]
      [⟨seg "abc", none, .lines []⟩] ⟨[], none, .raise (seg "oops")⟩ (seg "oops") []
      (by decide) (by decide) (by decide) rfl rfl⟩

/-- The page loop of app2.py lines 131-190: accumulates contributed texts,
page outcome entries (page, method) and struct artifact names in page order;
an exception propagates carrying the artifacts already saved. -/
def structLoop (force exportTxt exportJson exportMd : Bool) (cc : CharClasses) (pid : Nat) :
    List Page2 → Nat → List Seg →
      Except (List Char × List Seg)
          (List (List Char) × List (Nat × Method) × List Seg) × List Seg
  | [], _, disk => (.ok ([], [], []), disk)
  | pg :: rest, idx, disk =>
    let r := structPage force exportTxt exportJson exportMd cc pid idx pg disk
    match r.res with
    | .error (m, w) => (.error (m, w), r.disk)
    | .ok (w, oc) =>
      match structLoop force exportTxt exportJson exportMd cc pid rest (idx + 1) r.disk with
      | (.error (m, w'), disk') => (.error (m, w ++ w'), disk')
      | (.ok (texts, outs, ws), disk') =>
        (.ok ((match oc with
               | some (_, some t) => t :: texts
               | _ => texts),
              (match oc with
               | some (meth, _) => (idx + 1, meth) :: outs
               | none => outs),
              w ++ ws), disk')

/-- Document-level result of process_pdf: the success dict or the error dict;
in both cases together with the struct artifact names saved while the
document was being processed. -/
inductive DocResult2
  | ok (totalPages : Nat) (fullText : List Char) (pages : List (Nat × Method))
      (writes : List Seg)
  | err (msg : List Char) (writes : List Seg)
  deriving DecidableEq

/-- app2.py lines 100-202, process_pdf. -/
def process_pdf (force exportTxt exportJson exportMd : Bool) (cc : CharClasses) (pid : Nat)
    (doc : Except (List Char) (List Page2)) (disk : List Seg) : DocResult2 × List Seg :=
  match doc with
  | .error m => (.err m [], disk)
  | .ok pages =>
    match structLoop force exportTxt exportJson exportMd cc pid pages 0 disk with
    | (.error (m, w), disk') => (.err m w, disk')
    | (.ok (texts, outs, ws), disk') =>
      (.ok pages.length (joinBlank texts) outs ws, disk')

/-- A filesystem path: a list of name segments (relative to an implicit
filesystem root; Path.resolve is assumed already applied). -/
abbrev FPath := List Seg

/-- The modelled on-disk state: regular files with contents, and directories.
mkdir(parents=True, exist_ok=True) is recorded by adding the directory path
itself (parents are implicit). -/
structure FS where
  files : List (FPath × List Char)
  dirs : List FPath
  deriving DecidableEq

def FS.hasFile (fs : FS) (p : FPath) : Bool :=
  fs.files.any fun e => decide (e.1 = p)

/-- write_text: create or overwrite the file at p. -/
def FS.write (fs : FS) (p : FPath) (c : List Char) : FS :=
  { files := (p, c) :: fs.files.filter fun e => !decide (e.1 = p), dirs := fs.dirs }

def FS.mkdirp (fs : FS) (p : FPath) : FS :=
  if p ∈ fs.dirs then fs else { files := fs.files, dirs := p :: fs.dirs }

/-- Does the string s end with the string tail? -/
def hasTail (s tail : List Char) : Bool :=
  decide (s.drop (s.length - tail.length) = tail)

def pdfExt : List Char := seg ".pdf"

def lastSeg (p : FPath) : Seg := p.getLastD []

/-- Is root a (not necessarily proper) ancestor prefix of p? -/
def isUnder : FPath → FPath → Bool
  | [], _ => true
  | _ :: _, [] => false
  | a :: as, b :: bs => decide (a = b) && isUnder as bs

/-- app.py lines 68-81 / app2.py lines 64-76: Path(folder).rglob("*.pdf"), the
recursive scan for files whose name ends in .pdf, in the filesystem's
enumeration order; rglob yields only proper descendants of the root. -/
def list_pdf_files (fs : FS) (root : FPath) : List FPath :=
  (fs.files.map Prod.fst).filter fun p =>
    isUnder root p && decide (root.length < p.length) && hasTail (lastSeg p) pdfExt

/-- Path.stem for the discovered documents: the file name without its .pdf
extension (4 characters). -/
def stem (name : Seg) : Seg := name.take (name.length - 4)

def ocrSuf : Seg := seg "_ocr.txt"

def errSuf : Seg := seg "_ERROR.txt"

/-- The mirrored text artifact path for a document at relative path rel:
root/ocr_results/<rel parent>/<stem>_ocr.txt. -/
def outPath (root rel : FPath) : FPath :=
  (root ++ [seg "ocr_results"] ++ rel.dropLast) ++ [stem (lastSeg rel) ++ ocrSuf]

/-- The mirrored error artifact path: root/ocr_results/<rel parent>/<stem>_ERROR.txt. -/
def errPath (root rel : FPath) : FPath :=
  (root ++ [seg "ocr_results"] ++ rel.dropLast) ++ [stem (lastSeg rel) ++ errSuf]

/-- The per-document structured-output directory of app2.py line 265:
root/doc_results/<rel parent>/<stem>. -/
def structDir (root rel : FPath) : FPath :=
  (root ++ [seg "doc_results"] ++ rel.dropLast) ++ [stem (lastSeg rel)]

/-- One summary line per document. -/
inductive SEntry
  | ok (rel : FPath) (n : Nat)
  | error (rel : FPath)
  | skipped (rel : FPath)
  deriving DecidableEq

def SEntry.isSkipped : SEntry → Bool
  | .skipped _ => true
  | _ => false

def SEntry.okOrSkipped : SEntry → Bool
  | .ok _ _ => true
  | .skipped _ => true
  | .error _ => false

/-- One iteration of the document loop of ocr_all_pdfs (app.py lines 210-237):
mkdir of the mirrored parent, resume check on the text artifact, then either
skip, or process and write exactly one of the two artifacts.  The error
artifact's traceback part is not modelled. -/
def classicStep (force : Bool) (minChars : Nat) (cc : CharClasses) (pid : Nat)
    (oracle : FPath → Except (List Char) (List Page)) (root : FPath)
    (st : FS × List Seg) (pdf : FPath) : SEntry × FS × List Seg :=
  let rel := pdf.drop root.length
  let fs := st.1.mkdirp (outPath root rel).dropLast
  if fs.hasFile (outPath root rel) then (.skipped rel, fs, st.2)
  else
    match ocr_pdf_file force minChars cc pid (oracle pdf) st.2 with
    | (.err m, disk') => (.error rel, fs.write (errPath root rel) (seg "ERROR: " ++ m), disk')
    | (.ok n txt _pages, disk') => (.ok rel n, fs.write (outPath root rel) txt, disk')

def classicGo (force : Bool) (minChars : Nat) (cc : CharClasses) (pid : Nat)
    (oracle : FPath → Except (List Char) (List Page)) (root : FPath) :
    List FPath → FS × List Seg → List SEntry × FS × List Seg
  | [], st => ([], st.1, st.2)
  | pdf :: rest, st =>
    let r := classicStep force minChars cc pid oracle root st pdf
    let rr := classicGo force minChars cc pid oracle root rest (r.2.1, r.2.2)
    (r.1 :: rr.1, rr.2.1, rr.2.2)

/-- app.py lines 195-239, ocr_all_pdfs: create the output root, discover the
documents (after the output root exists, and without excluding it), then the
sequential document loop.  The lazy engine initialization is outside the
modelled core. -/
def ocr_all_pdfs (force : Bool) (minChars : Nat) (cc : CharClasses) (pid : Nat)
    (oracle : FPath → Except (List Char) (List Page)) (root : FPath)
    (fs : FS) (disk : List Seg) : List SEntry × FS × List Seg :=
  let fs := fs.mkdirp (root ++ [seg "ocr_results"])
  classicGo force minChars cc pid oracle root (list_pdf_files fs root) (fs, disk)

/-- Struct artifact contents are produced by the engine's savers; only their
names matter to the claims, so contents are modelled as empty. -/
def applyStructWrites (fs : FS) (dir : FPath) (w : List Seg) : FS :=
  w.foldl (fun acc n => acc.write (dir ++ [n]) []) fs

/-- One iteration of the document loop of run_batch (app2.py lines 250-288):
mkdirs for both mirrored parents and the per-document struct directory, then
process (no resume check in app2), apply struct writes, and write the error
artifact or (only when export_txt) the text artifact. -/
def structStep (force exportTxt exportJson exportMd : Bool) (cc : CharClasses) (pid : Nat)
    (oracle2 : FPath → Except (List Char) (List Page2)) (root : FPath)
    (st : FS × List Seg) (pdf : FPath) : SEntry × FS × List Seg :=
  let rel := pdf.drop root.length
  let fs := st.1.mkdirp (outPath root rel).dropLast
  let fs := fs.mkdirp (root ++ [seg "doc_results"] ++ rel.dropLast)
  let fs := fs.mkdirp (structDir root rel)
  match process_pdf force exportTxt exportJson exportMd cc pid (oracle2 pdf) st.2 with
  | (.err m w, disk') =>
    (.error rel,
      (applyStructWrites fs (structDir root rel) w).write (errPath root rel)
        (seg "ERROR: " ++ m), disk')
  | (.ok n txt _pages w, disk') =>
    let fs := applyStructWrites fs (structDir root rel) w
    (.ok rel n, if exportTxt then fs.write (outPath root rel) txt else fs, disk')

def structGo (force exportTxt exportJson exportMd : Bool) (cc : CharClasses) (pid : Nat)
    (oracle2 : FPath → Except (List Char) (List Page2)) (root : FPath) :
    List FPath → FS × List Seg → List SEntry × FS × List Seg
  | [], st => ([], st.1, st.2)
  | pdf :: rest, st =>
    let r := structStep force exportTxt exportJson exportMd cc pid oracle2 root st pdf
    let rr := structGo force exportTxt exportJson exportMd cc pid oracle2 root rest
      (r.2.1, r.2.2)
    (r.1 :: rr.1, rr.2.1, rr.2.2)

/-- app2.py lines 205-290, run_batch: create both output roots, discover the
documents, then the sequential document loop (run_batch has no resume check).
The empty-discovery early return produces the same empty summary. -/
def run_batch (force exportTxt exportJson exportMd : Bool) (cc : CharClasses) (pid : Nat)
    (oracle2 : FPath → Except (List Char) (List Page2)) (root : FPath)
    (fs : FS) (disk : List Seg) : List SEntry × FS × List Seg :=
  let fs := fs.mkdirp (root ++ [seg "ocr_results"])
  let fs := fs.mkdirp (root ++ [seg "doc_results"])
  structGo force exportTxt exportJson exportMd cc pid oracle2 root
    (list_pdf_files fs root) (fs, disk)

lemma structGo_cons (force exportTxt exportJson exportMd : Bool) (cc : CharClasses)
    (pid : Nat) (oracle2 : FPath → Except (List Char) (List Page2)) (root : FPath)
    (pdf : FPath) (rest : List FPath) (st : FS × List Seg) :
    structGo force exportTxt exportJson exportMd cc pid oracle2 root (pdf :: rest) st =
      ((structStep force exportTxt exportJson exportMd cc pid oracle2 root st pdf).1 ::
        (structGo force exportTxt exportJson exportMd cc pid oracle2 root rest
          ((structStep force exportTxt exportJson exportMd cc pid oracle2 root st pdf).2.1,
           (structStep force exportTxt exportJson exportMd cc pid oracle2 root st
             pdf).2.2)).1,
       (structGo force exportTxt exportJson exportMd cc pid oracle2 root rest
          ((structStep force exportTxt exportJson exportMd cc pid oracle2 root st pdf).2.1,
           (structStep force exportTxt exportJson exportMd cc pid oracle2 root st
             pdf).2.2)).2.1,
       (structGo force exportTxt exportJson exportMd cc pid oracle2 root rest
          ((structStep force exportTxt exportJson exportMd cc pid oracle2 root st pdf).2.1,
           (structStep force exportTxt exportJson exportMd cc pid oracle2 root st
             pdf).2.2)).2.2) := rfl

lemma FS.mkdirp_files (fs : FS) (p : FPath) : (fs.mkdirp p).files = fs.files := by
  unfold FS.mkdirp
  split <;> rfl

lemma FS.hasFile_mkdirp (fs : FS) (p q : FPath) :
    (fs.mkdirp p).hasFile q = fs.hasFile q := by
  unfold FS.hasFile
  rw [FS.mkdirp_files]

lemma FS.hasFile_write_self (fs : FS) (p : FPath) (c : List Char) :
    (fs.write p c).hasFile p = true := by
  unfold FS.hasFile FS.write
  simp

lemma FS.hasFile_write_ne (fs : FS) (p q : FPath) (c : List Char) (h : q ≠ p) :
    (fs.write p c).hasFile q = fs.hasFile q := by
  unfold FS.hasFile FS.write
  simp only [List.any_cons, List.any_filter]
  have hpq : decide (p = q) = false := decide_eq_false fun hh => h hh.symm
  rw [hpq, Bool.false_or]
  congr 1
  funext a
  by_cases ha : a.1 = q
  · have hap : decide (a.1 = p) = false :=
      decide_eq_false fun hh => h (ha.symm.trans hh)
    simp [ha, hap]
    exact h
  · simp [ha]

lemma FS.hasFile_write_mono (fs : FS) (p q : FPath) (c : List Char)
    (h : fs.hasFile q = true) : (fs.write p c).hasFile q = true := by
  by_cases hq : q = p
  · subst hq
    exact fs.hasFile_write_self q c
  · rw [FS.hasFile_write_ne fs p q c hq]
    exact h

lemma FS.mem_dirs_mkdirp_self (fs : FS) (p : FPath) : p ∈ (fs.mkdirp p).dirs := by
  unfold FS.mkdirp
  split
  · assumption
  · exact List.mem_cons_self p fs.dirs

lemma FS.mem_dirs_mkdirp (fs : FS) (p q : FPath) (h : q ∈ fs.dirs) :
    q ∈ (fs.mkdirp p).dirs := by
  unfold FS.mkdirp
  split
  · exact h
  · exact List.mem_cons_of_mem p h

lemma FS.write_dirs (fs : FS) (p : FPath) (c : List Char) :
    (fs.write p c).dirs = fs.dirs := rfl

lemma FS.mkdirp_of_mem (fs : FS) (p : FPath) (h : p ∈ fs.dirs) : fs.mkdirp p = fs := by
  unfold FS.mkdirp
  rw [if_pos h]

lemma list_pdf_files_mkdirp (fs : FS) (p root : FPath) :
    list_pdf_files (fs.mkdirp p) root = list_pdf_files fs root := by
  unfold list_pdf_files
  rw [FS.mkdirp_files]

lemma hasTail_append (a s t : List Char) (h : t.length ≤ s.length) :
    hasTail (a ++ s) t = hasTail s t := by
  unfold hasTail
  have hd : (a ++ s).drop ((a ++ s).length - t.length) = s.drop (s.length - t.length) := by
    rw [List.length_append]
    have harith : a.length + s.length - t.length = a.length + (s.length - t.length) := by
      omega
    rw [harith, ← List.drop_drop, List.drop_left]
  rw [hd]

lemma lastSeg_concat (l : FPath) (x : Seg) : lastSeg (l ++ [x]) = x := by
  unfold lastSeg
  rw [List.getLastD_eq_getLast?, List.getLast?_concat]
  rfl

lemma hasTail_ocrName_pdf (a : Seg) : hasTail (a ++ ocrSuf) pdfExt = false := by
  rw [hasTail_append a ocrSuf pdfExt (by decide)]
  decide

lemma hasTail_errName_pdf (a : Seg) : hasTail (a ++ errSuf) pdfExt = false := by
  rw [hasTail_append a errSuf pdfExt (by decide)]
  decide

lemma ocr_err_name_ne (a b : Seg) : a ++ ocrSuf ≠ b ++ errSuf := by
  intro h
  have hlen : a.length + ocrSuf.length = b.length + errSuf.length := by
    have hl := congrArg List.length h
    simpa using hl
  have h8 : ocrSuf.length = 8 := by decide
  have h10 : errSuf.length = 10 := by decide
  have hlen' : a.length = b.length + 2 := by omega
  have hdrop := congrArg (List.drop a.length) h
  rw [List.drop_left] at hdrop
  rw [hlen'] at hdrop
  rw [← List.drop_drop, List.drop_left] at hdrop
  exact absurd hdrop (by decide)

lemma outPath_ne_errPath (root ra rb : FPath) : outPath root ra ≠ errPath root rb := by
  intro h
  have hl := congrArg lastSeg h
  unfold outPath errPath at hl
  rw [lastSeg_concat, lastSeg_concat] at hl
  exact ocr_err_name_ne (stem (lastSeg ra)) (stem (lastSeg rb)) hl

lemma stem_recover (n : Seg) (h : hasTail n pdfExt = true) : stem n ++ pdfExt = n := by
  have h' := of_decide_eq_true h
  have h4 : pdfExt.length = 4 := by decide
  rw [h4] at h'
  unfold stem
  calc
    n.take (n.length - 4) ++ pdfExt = n.take (n.length - 4) ++ n.drop (n.length - 4) := by
      rw [h']
    _ = n := List.take_append_drop _ n

lemma stem_inj (na nb : Seg) (ha : hasTail na pdfExt = true)
    (hb : hasTail nb pdfExt = true) (h : stem na = stem nb) : na = nb := by
  have hna := stem_recover na ha
  have hnb := stem_recover nb hb
  rw [← hna, ← hnb, h]

lemma eq_dropLast_append_last (r : FPath) (h : r ≠ []) :
    r = r.dropLast ++ [lastSeg r] := by
  conv_lhs => rw [← List.dropLast_append_getLast h]
  congr 1
  unfold lastSeg
  rw [List.getLastD_eq_getLast?, List.getLast?_eq_getLast r h]
  rfl

lemma mirrored_path_inj (root ra rb : FPath) (sufx : Seg)
    (hna : ra ≠ []) (hnb : rb ≠ [])
    (ha : hasTail (lastSeg ra) pdfExt = true) (hb : hasTail (lastSeg rb) pdfExt = true)
    (h : (root ++ [seg "ocr_results"] ++ ra.dropLast) ++ [stem (lastSeg ra) ++ sufx] =
      (root ++ [seg "ocr_results"] ++ rb.dropLast) ++ [stem (lastSeg rb) ++ sufx]) :
    ra = rb := by
  rw [List.append_assoc (root ++ [seg "ocr_results"]),
    List.append_assoc (root ++ [seg "ocr_results"])] at h
  have h2 := List.append_cancel_left h
  have hlast := congrArg List.getLast? h2
  rw [List.getLast?_concat, List.getLast?_concat] at hlast
  have hname : stem (lastSeg ra) ++ sufx = stem (lastSeg rb) ++ sufx :=
    Option.some.inj hlast
  have hstem : stem (lastSeg ra) = stem (lastSeg rb) := List.append_cancel_right hname
  have hlseg : lastSeg ra = lastSeg rb := stem_inj _ _ ha hb hstem
  have hdl := congrArg List.dropLast h2
  rw [List.dropLast_concat, List.dropLast_concat] at hdl
  rw [eq_dropLast_append_last ra hna, eq_dropLast_append_last rb hnb, hdl, hlseg]

lemma outPath_inj (root ra rb : FPath) (hna : ra ≠ []) (hnb : rb ≠ [])
    (ha : hasTail (lastSeg ra) pdfExt = true) (hb : hasTail (lastSeg rb) pdfExt = true)
    (h : outPath root ra = outPath root rb) : ra = rb :=
  mirrored_path_inj root ra rb ocrSuf hna hnb ha hb h

lemma errPath_inj (root ra rb : FPath) (hna : ra ≠ []) (hnb : rb ≠ [])
    (ha : hasTail (lastSeg ra) pdfExt = true) (hb : hasTail (lastSeg rb) pdfExt = true)
    (h : errPath root ra = errPath root rb) : ra = rb :=
  mirrored_path_inj root ra rb errSuf hna hnb ha hb h

lemma isUnder_recover : ∀ (root p : FPath), isUnder root p = true →
    root ++ p.drop root.length = p := by
  intro root
  induction root with
  | nil =>
    intro p _
    simp
  | cons a as ih =>
    intro p h
    cases p with
    | nil => simp [isUnder] at h
    | cons b bs =>
      unfold isUnder at h
      rw [Bool.and_eq_true, decide_eq_true_eq] at h
      obtain ⟨hab, hrest⟩ := h
      subst hab
      simp only [List.length_cons, List.drop_succ_cons, List.cons_append]
      rw [ih bs hrest]

lemma mem_list_pdf_files (fs : FS) (root p : FPath) (h : p ∈ list_pdf_files fs root) :
    isUnder root p = true ∧ root.length < p.length ∧ hasTail (lastSeg p) pdfExt = true := by
  unfold list_pdf_files at h
  have h2 := (List.mem_filter.mp h).2
  rw [Bool.and_eq_true, Bool.and_eq_true, decide_eq_true_eq] at h2
  exact ⟨h2.1.1, h2.1.2, h2.2⟩

lemma filter_map_fst_filter_ne (P : FPath → Bool) (p : FPath) (hP : P p = false)
    (l : List (FPath × List Char)) :
    ((l.filter fun e => !decide (e.1 = p)).map Prod.fst).filter P =
      (l.map Prod.fst).filter P := by
  induction l with
  | nil => rfl
  | cons e l ih =>
    by_cases he : e.1 = p
    · rw [List.filter_cons]
      have h1 : (!decide (e.1 = p)) = false := by
        rw [decide_eq_true he]
        rfl
      rw [h1]
      simp only [Bool.false_eq_true, if_false]
      rw [List.map_cons, List.filter_cons]
      have h2 : P e.1 = false := by
        rw [he]
        exact hP
      rw [h2]
      simp only [Bool.false_eq_true, if_false]
      exact ih
    · rw [List.filter_cons]
      have h1 : (!decide (e.1 = p)) = true := by
        rw [decide_eq_false he]
        rfl
      rw [h1, if_pos rfl]
      rw [List.map_cons, List.map_cons, List.filter_cons, List.filter_cons, ih]

lemma list_pdf_files_write (fs : FS) (p : FPath) (c : List Char) (root : FPath)
    (h : hasTail (lastSeg p) pdfExt = false) :
    list_pdf_files (fs.write p c) root = list_pdf_files fs root := by
  unfold list_pdf_files FS.write
  simp only [List.map_cons, List.filter_cons]
  have hP : (isUnder root p && decide (root.length < p.length) &&
      hasTail (lastSeg p) pdfExt) = false := by
    rw [h, Bool.and_false]
  rw [hP]
  simp only [Bool.false_eq_true, if_false]
  exact filter_map_fst_filter_ne _ p hP fs.files

lemma lastSeg_outPath (root rel : FPath) :
    lastSeg (outPath root rel) = stem (lastSeg rel) ++ ocrSuf := by
  unfold outPath
  exact lastSeg_concat _ _

lemma lastSeg_errPath (root rel : FPath) :
    lastSeg (errPath root rel) = stem (lastSeg rel) ++ errSuf := by
  unfold errPath
  exact lastSeg_concat _ _

lemma list_pdf_files_write_out (fs : FS) (root' root rel : FPath) (c : List Char) :
    list_pdf_files (fs.write (outPath root rel) c) root' = list_pdf_files fs root' :=
  list_pdf_files_write fs _ c root'
    (by rw [lastSeg_outPath]; exact hasTail_ocrName_pdf _)

lemma list_pdf_files_write_err (fs : FS) (root' root rel : FPath) (c : List Char) :
    list_pdf_files (fs.write (errPath root rel) c) root' = list_pdf_files fs root' :=
  list_pdf_files_write fs _ c root'
    (by rw [lastSeg_errPath]; exact hasTail_errName_pdf _)

lemma classicGo_cons (force : Bool) (minChars : Nat) (cc : CharClasses) (pid : Nat)
    (oracle : FPath → Except (List Char) (List Page)) (root : FPath)
    (pdf : FPath) (rest : List FPath) (st : FS × List Seg) :
    classicGo force minChars cc pid oracle root (pdf :: rest) st =
      ((classicStep force minChars cc pid oracle root st pdf).1 ::
        (classicGo force minChars cc pid oracle root rest
          ((classicStep force minChars cc pid oracle root st pdf).2.1,
           (classicStep force minChars cc pid oracle root st pdf).2.2)).1,
       (classicGo force minChars cc pid oracle root rest
          ((classicStep force minChars cc pid oracle root st pdf).2.1,
           (classicStep force minChars cc pid oracle root st pdf).2.2)).2.1,
       (classicGo force minChars cc pid oracle root rest
          ((classicStep force minChars cc pid oracle root st pdf).2.1,
           (classicStep force minChars cc pid oracle root st pdf).2.2)).2.2) := rfl

lemma classicStep_discovery (force : Bool) (minChars : Nat) (cc : CharClasses) (pid : Nat)
    (oracle : FPath → Except (List Char) (List Page)) (root root' : FPath)
    (st : FS × List Seg) (pdf : FPath) :
    list_pdf_files (classicStep force minChars cc pid oracle root st pdf).2.1 root' =
      list_pdf_files st.1 root' := by
  unfold classicStep
  dsimp only
  split
  · rw [list_pdf_files_mkdirp]
  · rcases hd : ocr_pdf_file force minChars cc pid (oracle pdf) st.2 with ⟨res, disk'⟩
    cases res with
    | err m =>
      rw [list_pdf_files_write_err, list_pdf_files_mkdirp]
    | ok n txt pages =>
      rw [list_pdf_files_write_out, list_pdf_files_mkdirp]

lemma classicGo_discovery (force : Bool) (minChars : Nat) (cc : CharClasses) (pid : Nat)
    (oracle : FPath → Except (List Char) (List Page)) (root root' : FPath) :
    ∀ (l : List FPath) (st : FS × List Seg),
      list_pdf_files (classicGo force minChars cc pid oracle root l st).2.1 root' =
        list_pdf_files st.1 root' := by
  intro l
  induction l with
  | nil => intro st; rfl
  | cons pdf rest ih =>
    intro st
    rw [classicGo_cons]
    dsimp only
    rw [ih]
    exact classicStep_discovery force minChars cc pid oracle root root' st pdf

lemma classicStep_hasFile_mono (force : Bool) (minChars : Nat) (cc : CharClasses)
    (pid : Nat) (oracle : FPath → Except (List Char) (List Page)) (root : FPath)
    (st : FS × List Seg) (pdf q : FPath) (h : st.1.hasFile q = true) :
    (classicStep force minChars cc pid oracle root st pdf).2.1.hasFile q = true := by
  unfold classicStep
  dsimp only
  split
  · rw [FS.hasFile_mkdirp]
    exact h
  · rcases hd : ocr_pdf_file force minChars cc pid (oracle pdf) st.2 with ⟨res, disk'⟩
    cases res with
    | err m =>
      apply FS.hasFile_write_mono
      rw [FS.hasFile_mkdirp]
      exact h
    | ok n txt pages =>
      apply FS.hasFile_write_mono
      rw [FS.hasFile_mkdirp]
      exact h

lemma classicStep_dirs_mono (force : Bool) (minChars : Nat) (cc : CharClasses)
    (pid : Nat) (oracle : FPath → Except (List Char) (List Page)) (root : FPath)
    (st : FS × List Seg) (pdf q : FPath) (h : q ∈ st.1.dirs) :
    q ∈ (classicStep force minChars cc pid oracle root st pdf).2.1.dirs := by
  unfold classicStep
  dsimp only
  split
  · exact FS.mem_dirs_mkdirp st.1 _ q h
  · rcases hd : ocr_pdf_file force minChars cc pid (oracle pdf) st.2 with ⟨res, disk'⟩
    cases res with
    | err m =>
      rw [FS.write_dirs]
      exact FS.mem_dirs_mkdirp st.1 _ q h
    | ok n txt pages =>
      rw [FS.write_dirs]
      exact FS.mem_dirs_mkdirp st.1 _ q h

lemma classicGo_hasFile_mono (force : Bool) (minChars : Nat) (cc : CharClasses)
    (pid : Nat) (oracle : FPath → Except (List Char) (List Page)) (root : FPath) :
    ∀ (l : List FPath) (st : FS × List Seg) (q : FPath), st.1.hasFile q = true →
      (classicGo force minChars cc pid oracle root l st).2.1.hasFile q = true := by
  intro l
  induction l with
  | nil => intro st q h; exact h
  | cons pdf rest ih =>
    intro st q h
    rw [classicGo_cons]
    exact ih _ q (classicStep_hasFile_mono force minChars cc pid oracle root st pdf q h)

lemma classicGo_dirs_mono (force : Bool) (minChars : Nat) (cc : CharClasses)
    (pid : Nat) (oracle : FPath → Except (List Char) (List Page)) (root : FPath) :
    ∀ (l : List FPath) (st : FS × List Seg) (q : FPath), q ∈ st.1.dirs →
      q ∈ (classicGo force minChars cc pid oracle root l st).2.1.dirs := by
  intro l
  induction l with
  | nil => intro st q h; exact h
  | cons pdf rest ih =>
    intro st q h
    rw [classicGo_cons]
    exact ih _ q (classicStep_dirs_mono force minChars cc pid oracle root st pdf q h)

lemma classicStep_cases (force : Bool) (minChars : Nat) (cc : CharClasses) (pid : Nat)
    (oracle : FPath → Except (List Char) (List Page)) (root : FPath)
    (st : FS × List Seg) (pdf : FPath) :
    (∃ rel, (classicStep force minChars cc pid oracle root st pdf).1 = .error rel) ∨
      ((classicStep force minChars cc pid oracle root st pdf).2.1.hasFile
          (outPath root (pdf.drop root.length)) = true ∧
        (outPath root (pdf.drop root.length)).dropLast ∈
          (classicStep force minChars cc pid oracle root st pdf).2.1.dirs) := by
  unfold classicStep
  dsimp only
  split
  · next hif =>
    right
    exact ⟨hif, FS.mem_dirs_mkdirp_self st.1 _⟩
  · rcases hd : ocr_pdf_file force minChars cc pid (oracle pdf) st.2 with ⟨res, disk'⟩
    cases res with
    | err m => exact Or.inl ⟨_, rfl⟩
    | ok n txt pages =>
      right
      constructor
      · exact FS.hasFile_write_self _ _ _
      · rw [FS.write_dirs]
        exact FS.mem_dirs_mkdirp_self st.1 _

lemma classicGo_all_ok (force : Bool) (minChars : Nat) (cc : CharClasses) (pid : Nat)
    (oracle : FPath → Except (List Char) (List Page)) (root : FPath) :
    ∀ (l : List FPath) (st : FS × List Seg),
      (∀ e ∈ (classicGo force minChars cc pid oracle root l st).1, e.okOrSkipped = true) →
      ∀ p ∈ l,
        (classicGo force minChars cc pid oracle root l st).2.1.hasFile
          (outPath root (p.drop root.length)) = true ∧
        (outPath root (p.drop root.length)).dropLast ∈
          (classicGo force minChars cc pid oracle root l st).2.1.dirs := by
  intro l
  induction l with
  | nil =>
    intro st _ p hp
    exact absurd hp (List.not_mem_nil p)
  | cons pdf rest ih =>
    intro st hall p hp
    rw [classicGo_cons] at hall ⊢
    rcases List.mem_cons.mp hp with rfl | hmem
    · rcases classicStep_cases force minChars cc pid oracle root st p with ⟨rel, herr⟩ | ⟨h1, h2⟩
      · exfalso
        have hok := hall (classicStep force minChars cc pid oracle root st p).1
          (List.mem_cons_self _ _)
        rw [herr] at hok
        simp [SEntry.okOrSkipped] at hok
      · exact ⟨classicGo_hasFile_mono force minChars cc pid oracle root rest _ _ h1,
          classicGo_dirs_mono force minChars cc pid oracle root rest _ _ h2⟩
    · exact ih _ (fun e he => hall e (List.mem_cons_of_mem _ he)) p hmem

lemma classicGo_all_present (force : Bool) (minChars : Nat) (cc : CharClasses) (pid : Nat)
    (oracle : FPath → Except (List Char) (List Page)) (root : FPath) :
    ∀ (l : List FPath) (st : FS × List Seg),
      (∀ p ∈ l, st.1.hasFile (outPath root (p.drop root.length)) = true ∧
        (outPath root (p.drop root.length)).dropLast ∈ st.1.dirs) →
      classicGo force minChars cc pid oracle root l st =
        (l.map fun p => SEntry.skipped (p.drop root.length), st.1, st.2) := by
  intro l
  induction l with
  | nil => intro st _; rfl
  | cons pdf rest ih =>
    intro st h
    rw [classicGo_cons]
    have hp := h pdf (List.mem_cons_self _ _)
    have hstep : classicStep force minChars cc pid oracle root st pdf =
        (.skipped (pdf.drop root.length), st.1, st.2) := by
      unfold classicStep
      dsimp only
      rw [FS.mkdirp_of_mem st.1 _ hp.2, if_pos hp.1]
    rw [hstep]
    dsimp only
    rw [ih (st.1, st.2) (fun q hq => h q (List.mem_cons_of_mem _ hq))]
    rfl

/-- C2 (amended): in the classic batch, if every entry of a run is OK or
SKIPPED, then re-running over the resulting tree yields a summary whose every
entry is SKIPPED and leaves the filesystem unchanged.  (Documents whose entry
was ERROR are reprocessed on a re-run, and the structured batch has no skip
check at all: see the counterexample.) -/
theorem claimC2 (force : Bool) (minChars : Nat) (cc : CharClasses) (pid : Nat)
    (oracle : FPath → Except (List Char) (List Page)) (root : FPath)
    (fs : FS) (disk disk2 : List Seg)
    (h : ∀ e ∈ (ocr_all_pdfs force minChars cc pid oracle root fs disk).1,
      e.okOrSkipped = true) :
    (∀ e ∈ (ocr_all_pdfs force minChars cc pid oracle root
        (ocr_all_pdfs force minChars cc pid oracle root fs disk).2.1 disk2).1,
      e.isSkipped = true) ∧
      (ocr_all_pdfs force minChars cc pid oracle root
          (ocr_all_pdfs force minChars cc pid oracle root fs disk).2.1 disk2).2.1 =
        (ocr_all_pdfs force minChars cc pid oracle root fs disk).2.1 := by
  have hrun1 : ocr_all_pdfs force minChars cc pid oracle root fs disk =
      classicGo force minChars cc pid oracle root
        (list_pdf_files (fs.mkdirp (root ++ [seg "ocr_results"])) root)
        (fs.mkdirp (root ++ [seg "ocr_results"]), disk) := rfl
  have hdirs1 : (root ++ [seg "ocr_results"]) ∈
      (ocr_all_pdfs force minChars cc pid oracle root fs disk).2.1.dirs := by
    rw [hrun1]
    exact classicGo_dirs_mono force minChars cc pid oracle root _ _ _
      (FS.mem_dirs_mkdirp_self fs _)
  have hdisc : list_pdf_files (ocr_all_pdfs force minChars cc pid oracle root fs disk).2.1
      root = list_pdf_files (fs.mkdirp (root ++ [seg "ocr_results"])) root := by
    rw [hrun1]
    exact classicGo_discovery force minChars cc pid oracle root root _ _
  have hpresent := classicGo_all_ok force minChars cc pid oracle root
    (list_pdf_files (fs.mkdirp (root ++ [seg "ocr_results"])) root)
    (fs.mkdirp (root ++ [seg "ocr_results"]), disk) (by rw [← hrun1]; exact h)
  have hrun2 : ocr_all_pdfs force minChars cc pid oracle root
      (ocr_all_pdfs force minChars cc pid oracle root fs disk).2.1 disk2 =
      classicGo force minChars cc pid oracle root
        (list_pdf_files (fs.mkdirp (root ++ [seg "ocr_results"])) root)
        ((ocr_all_pdfs force minChars cc pid oracle root fs disk).2.1, disk2) := by
    show classicGo force minChars cc pid oracle root
        (list_pdf_files ((ocr_all_pdfs force minChars cc pid oracle root fs
          disk).2.1.mkdirp (root ++ [seg "ocr_results"])) root)
        ((ocr_all_pdfs force minChars cc pid oracle root fs disk).2.1.mkdirp
          (root ++ [seg "ocr_results"]), disk2) = _
    rw [FS.mkdirp_of_mem _ _ hdirs1, hdisc]
  have hfinal := classicGo_all_present force minChars cc pid oracle root
    (list_pdf_files (fs.mkdirp (root ++ [seg "ocr_results"])) root)
    ((ocr_all_pdfs force minChars cc pid oracle root fs disk).2.1, disk2)
    (by
      intro p hp
      have := hpresent p hp
      rw [← hrun1] at this
      exact this)
  rw [hrun2, hfinal]
  constructor
  · intro e he
    dsimp only at he
    obtain ⟨p, _, rfl⟩ := List.mem_map.mp he
    rfl
  · rfl

theorem claimC2_witness :
    (∀ e ∈ (ocr_all_pdfs false 300 asciiClasses 0 (fun _ => .ok []) [seg "r"]
        ⟨[([seg "r", seg "a.pdf"], [])], [[seg "r"]]⟩ []).1, e.okOrSkipped = true) ∧
      ((∀ e ∈ (ocr_all_pdfs false 300 asciiClasses 0 (fun _ => .ok []) [seg "r"]
          (ocr_all_pdfs false 300 asciiClasses 0 (fun _ => .ok []) [seg "r"]
            ⟨[([seg "r", seg "a.pdf"], [])], [[seg "r"]]⟩ []).2.1 []).1,
        e.isSkipped = true) ∧
        (ocr_all_pdfs false 300 asciiClasses 0 (fun _ => .ok []) [seg "r"]
            (ocr_all_pdfs false 300 asciiClasses 0 (fun _ => .ok []) [seg "r"]
              ⟨[([seg "r", seg "a.pdf"], [])], [[seg "r"]]⟩ []).2.1 []).2.1 =
          (ocr_all_pdfs false 300 asciiClasses 0 (fun _ => .ok []) [seg "r"]
            ⟨[([seg "r", seg "a.pdf"], [])], [[seg "r"]]⟩ []).2.1) :=
  ⟨by decide,
    claimC2 false 300 asciiClasses 0 (fun _ => .ok []) [seg "r"]
      ⟨[([seg "r", seg "a.pdf"], [])], [[seg "r"]]⟩ [] [] (by decide)⟩

/-- C2 counterexample: the structured batch has no resume check, so running it
a second time over an unchanged tree (whose text artifact already exists)
reprocesses the document and records OK again, not SKIPPED. -/
theorem claimC2_counterexample :
    (run_batch false true false false asciiClasses 0 (fun _ => .ok []) [seg "r"]
        (run_batch false true false false asciiClasses 0 (fun _ => .ok []) [seg "r"]
          ⟨[([seg "r", seg "a.pdf"], [])], [[seg "r"]]⟩ []).2.1 []).1 =
      [SEntry.ok [seg "a.pdf"] 0] ∧
      SEntry.isSkipped (SEntry.ok [seg "a.pdf"] 0) = false ∧
      (run_batch false true false false asciiClasses 0 (fun _ => .ok []) [seg "r"]
          ⟨[([seg "r", seg "a.pdf"], [])], [[seg "r"]]⟩ []).2.1.hasFile
        [seg "r", seg "ocr_results", seg "a_ocr.txt"] = true := by
  exact ⟨by decide, rfl, by decide⟩

lemma hasTail_getLast (s t : List Char) (ht : t ≠ []) (h : hasTail s t = true) :
    s.getLast? = t.getLast? := by
  have h' := of_decide_eq_true h
  have hs : s = s.take (s.length - t.length) ++ t := by
    conv_lhs => rw [← List.take_append_drop (s.length - t.length) s]
    rw [h']
  have hg := congrArg List.getLast? hs
  rw [List.getLast?_append_of_ne_nil _ ht] at hg
  exact hg

lemma hasTail_jsonName_pdf (a : Seg) : hasTail (a ++ seg ".json") pdfExt = false := by
  apply Bool.eq_false_iff.mpr
  intro h
  have hl := hasTail_getLast _ pdfExt (by decide) h
  rw [List.getLast?_append_of_ne_nil _ (by decide : seg ".json" ≠ [])] at hl
  exact absurd hl (by decide)

lemma hasTail_mdName_pdf (a : Seg) : hasTail (a ++ seg ".md") pdfExt = false := by
  apply Bool.eq_false_iff.mpr
  intro h
  have hl := hasTail_getLast _ pdfExt (by decide) h
  rw [List.getLast?_append_of_ne_nil _ (by decide : seg ".md" ≠ [])] at hl
  exact absurd hl (by decide)

/-- The struct artifact names carried by an app2 page result (saved ones on
the error side, saved ones on the success side). -/
def pageResWrites :
    Except (List Char × List Seg) (List Seg × Option (Method × Option (List Char))) →
      List Seg
  | .error (_, w) => w
  | .ok (w, _) => w

/-- The struct artifact names carried by an app2 page-loop result. -/
def loopResWrites :
    Except (List Char × List Seg)
        (List (List Char) × List (Nat × Method) × List Seg) → List Seg
  | .error (_, w) => w
  | .ok (_, _, ws) => ws

/-- The struct artifact names carried by a process_pdf result. -/
def docWrites : DocResult2 → List Seg
  | .ok _ _ _ w => w
  | .err _ w => w

lemma structArtifacts_nonPdf (exportJson exportMd : Bool) (names : List (List Char)) :
    ∀ nm ∈ structArtifacts exportJson exportMd names, hasTail nm pdfExt = false := by
  intro nm hnm
  unfold structArtifacts at hnm
  rw [List.mem_flatMap] at hnm
  obtain ⟨n, _, hin⟩ := hnm
  rw [List.mem_append] at hin
  rcases hin with hj | hm
  · cases exportJson with
    | false => simp at hj
    | true =>
      simp at hj
      subst hj
      exact hasTail_jsonName_pdf n
  · cases exportMd with
    | false => simp at hm
    | true =>
      simp at hm
      subst hm
      exact hasTail_mdName_pdf n

lemma structText_writes (force exportTxt : Bool) (cc : CharClasses) (pg : Page2)
    (writes : List Seg) (img : Seg) (disk : List Seg) :
    pageResWrites (structText force exportTxt cc pg writes img disk).res = writes := by
  rcases pg with ⟨emb, rErr, sc, oc⟩
  unfold structText
  split
  · split
    · rfl
    · rcases oc with e | ls
      · rfl
      · dsimp only
        split <;> rfl
  · rfl

lemma structPage_writes (force exportTxt exportJson exportMd : Bool) (cc : CharClasses)
    (pid idx : Nat) (pg : Page2) (disk : List Seg) :
    ∀ nm ∈ pageResWrites
        (structPage force exportTxt exportJson exportMd cc pid idx pg disk).res,
      hasTail nm pdfExt = false := by
  rcases pg with ⟨emb, rErr, sc, oc⟩
  unfold structPage
  rcases rErr with _ | m
  · dsimp only
    split
    · rcases sc with e | names
      · intro nm hnm
        exact absurd hnm (List.not_mem_nil nm)
      · intro nm hnm
        rw [structText_writes] at hnm
        exact structArtifacts_nonPdf exportJson exportMd names nm hnm
    · intro nm hnm
      rw [structText_writes] at hnm
      exact absurd hnm (List.not_mem_nil nm)
  · intro nm hnm
    exact absurd hnm (List.not_mem_nil nm)

lemma structLoop_writes (force exportTxt exportJson exportMd : Bool) (cc : CharClasses)
    (pid : Nat) :
    ∀ (l : List Page2) (idx : Nat) (disk : List Seg),
      ∀ nm ∈ loopResWrites
          (structLoop force exportTxt exportJson exportMd cc pid l idx disk).1,
        hasTail nm pdfExt = false := by
  intro l
  induction l with
  | nil =>
    intro idx disk nm hnm
    exact absurd hnm (List.not_mem_nil nm)
  | cons pg rest ih =>
    intro idx disk nm hnm
    unfold structLoop at hnm
    dsimp only at hnm
    have hpw := structPage_writes force exportTxt exportJson exportMd cc pid idx pg disk nm
    rcases hres : (structPage force exportTxt exportJson exportMd cc pid idx pg disk).res
      with ⟨m, w⟩ | ⟨w, oc⟩
    · rw [hres] at hnm hpw
      exact hpw hnm
    · rw [hres] at hnm hpw
      rcases hsplit : structLoop force exportTxt exportJson exportMd cc pid rest (idx + 1)
          (structPage force exportTxt exportJson exportMd cc pid idx pg disk).disk
        with ⟨res', disk'⟩
      rw [hsplit] at hnm
      have hihw := ih (idx + 1)
        (structPage force exportTxt exportJson exportMd cc pid idx pg disk).disk nm
      rw [hsplit] at hihw
      cases res' with
      | error pr =>
        rcases pr with ⟨m', w'⟩
        rcases List.mem_append.mp hnm with h1 | h2
        · exact hpw h1
        · exact hihw h2
      | ok tr =>
        rcases tr with ⟨texts, outs, ws⟩
        rcases List.mem_append.mp hnm with h1 | h2
        · exact hpw h1
        · exact hihw h2

lemma process_pdf_writes (force exportTxt exportJson exportMd : Bool) (cc : CharClasses)
    (pid : Nat) (doc : Except (List Char) (List Page2)) (disk : List Seg) :
    ∀ nm ∈ docWrites
        (process_pdf force exportTxt exportJson exportMd cc pid doc disk).1,
      hasTail nm pdfExt = false := by
  cases doc with
  | error m =>
    intro nm hnm
    exact absurd hnm (List.not_mem_nil nm)
  | ok pages =>
    have hred : process_pdf force exportTxt exportJson exportMd cc pid (.ok pages) disk =
        (match structLoop force exportTxt exportJson exportMd cc pid pages 0 disk with
          | (.error (m, w), disk') => (DocResult2.err m w, disk')
          | (.ok (texts, outs, ws2), disk') =>
            (DocResult2.ok pages.length (joinBlank texts) outs ws2, disk')) := rfl
    intro nm hnm
    rw [hred] at hnm
    have hl := structLoop_writes force exportTxt exportJson exportMd cc pid pages 0 disk nm
    rcases hsplit : structLoop force exportTxt exportJson exportMd cc pid pages 0 disk
      with ⟨res', disk'⟩
    rw [hsplit] at hnm hl
    cases res' with
    | error pr =>
      rcases pr with ⟨m, w⟩
      exact hl hnm
    | ok tr =>
      rcases tr with ⟨texts, outs, ws⟩
      exact hl hnm

lemma applyStructWrites_discovery (dir root' : FPath) :
    ∀ (w : List Seg) (fs : FS), (∀ nm ∈ w, hasTail nm pdfExt = false) →
      list_pdf_files (applyStructWrites fs dir w) root' = list_pdf_files fs root' := by
  intro w
  induction w with
  | nil => intro fs _; rfl
  | cons nm rest ih =>
    intro fs h
    have hunf : applyStructWrites fs dir (nm :: rest) =
        applyStructWrites (fs.write (dir ++ [nm]) []) dir rest := rfl
    rw [hunf, ih _ (fun q hq => h q (List.mem_cons_of_mem _ hq))]
    exact list_pdf_files_write fs _ [] root'
      (by rw [lastSeg_concat]; exact h nm (List.mem_cons_self _ _))

lemma structStep_discovery (force exportTxt exportJson exportMd : Bool) (cc : CharClasses)
    (pid : Nat) (oracle2 : FPath → Except (List Char) (List Page2)) (root root' : FPath)
    (st : FS × List Seg) (pdf : FPath) :
    list_pdf_files
        (structStep force exportTxt exportJson exportMd cc pid oracle2 root st pdf).2.1
        root' = list_pdf_files st.1 root' := by
  unfold structStep
  dsimp only
  have hw := process_pdf_writes force exportTxt exportJson exportMd cc pid (oracle2 pdf) st.2
  rcases hd : process_pdf force exportTxt exportJson exportMd cc pid (oracle2 pdf) st.2
    with ⟨res, disk'⟩
  rw [hd] at hw
  cases res with
  | err m w =>
    rw [list_pdf_files_write_err, applyStructWrites_discovery _ _ w _ hw,
      list_pdf_files_mkdirp, list_pdf_files_mkdirp, list_pdf_files_mkdirp]
  | ok n txt pages w =>
    dsimp only
    split
    · rw [list_pdf_files_write_out, applyStructWrites_discovery _ _ w _ hw,
        list_pdf_files_mkdirp, list_pdf_files_mkdirp, list_pdf_files_mkdirp]
    · rw [applyStructWrites_discovery _ _ w _ hw,
        list_pdf_files_mkdirp, list_pdf_files_mkdirp, list_pdf_files_mkdirp]

lemma structGo_discovery (force exportTxt exportJson exportMd : Bool) (cc : CharClasses)
    (pid : Nat) (oracle2 : FPath → Except (List Char) (List Page2)) (root root' : FPath) :
    ∀ (l : List FPath) (st : FS × List Seg),
      list_pdf_files
          (structGo force exportTxt exportJson exportMd cc pid oracle2 root l st).2.1
          root' = list_pdf_files st.1 root' := by
  intro l
  induction l with
  | nil => intro st; rfl
  | cons pdf rest ih =>
    intro st
    rw [structGo_cons]
    dsimp only
    rw [ih]
    exact structStep_discovery force exportTxt exportJson exportMd cc pid oracle2 root
      root' st pdf

/-- C7 (amended): neither batch run ever changes the set of discovered
documents: every artifact either run writes has a name ending in _ocr.txt,
_ERROR.txt, .json or .md, and the discovery scan matches only names ending in
.pdf, so prior outputs are never re-scanned as inputs even though the scan
runs after the output roots exist and does not exclude them. -/
theorem claimC7 (force : Bool) (minChars : Nat) (cc : CharClasses) (pid : Nat)
    (oracle : FPath → Except (List Char) (List Page)) (root : FPath)
    (fs : FS) (disk : List Seg) (force2 exportTxt exportJson exportMd : Bool)
    (cc2 : CharClasses) (pid2 : Nat) (oracle2 : FPath → Except (List Char) (List Page2))
    (root2 : FPath) (fs2 : FS) (disk2 : List Seg) :
    list_pdf_files (ocr_all_pdfs force minChars cc pid oracle root fs disk).2.1 root =
        list_pdf_files fs root ∧
      list_pdf_files (run_batch force2 exportTxt exportJson exportMd cc2 pid2 oracle2
          root2 fs2 disk2).2.1 root2 = list_pdf_files fs2 root2 := by
  constructor
  · have hrun : ocr_all_pdfs force minChars cc pid oracle root fs disk =
        classicGo force minChars cc pid oracle root
          (list_pdf_files (fs.mkdirp (root ++ [seg "ocr_results"])) root)
          (fs.mkdirp (root ++ [seg "ocr_results"]), disk) := rfl
    rw [hrun, classicGo_discovery, list_pdf_files_mkdirp]
  · have hrun2 : run_batch force2 exportTxt exportJson exportMd cc2 pid2 oracle2 root2
        fs2 disk2 =
        structGo force2 exportTxt exportJson exportMd cc2 pid2 oracle2 root2
          (list_pdf_files
            ((fs2.mkdirp (root2 ++ [seg "ocr_results"])).mkdirp
              (root2 ++ [seg "doc_results"])) root2)
          ((fs2.mkdirp (root2 ++ [seg "ocr_results"])).mkdirp
            (root2 ++ [seg "doc_results"]), disk2) := rfl
    rw [hrun2, structGo_discovery, list_pdf_files_mkdirp, list_pdf_files_mkdirp]

/-- C7 counterexample: the discovery walk runs while the output root already
exists and does not exclude it: a stray .pdf sitting inside ocr_results is
discovered and processed as an input document. -/
theorem claimC7_counterexample :
    ([seg "r", seg "ocr_results"] ∈
        (⟨[([seg "r", seg "ocr_results", seg "x.pdf"], [])],
          [[seg "r"], [seg "r", seg "ocr_results"]]⟩ : FS).dirs) ∧
      list_pdf_files
          (⟨[([seg "r", seg "ocr_results", seg "x.pdf"], [])],
            [[seg "r"], [seg "r", seg "ocr_results"]]⟩ : FS) [seg "r"] =
        [[seg "r", seg "ocr_results", seg "x.pdf"]] ∧
      (ocr_all_pdfs false 300 asciiClasses 0 (fun _ => .ok []) [seg "r"]
          ⟨[([seg "r", seg "ocr_results", seg "x.pdf"], [])],
            [[seg "r"], [seg "r", seg "ocr_results"]]⟩ []).1 =
        [SEntry.ok [seg "ocr_results", seg "x.pdf"] 0] := by
  exact ⟨by decide, by decide, by decide⟩

lemma classicLoop_res_disk (force : Bool) (minChars : Nat) (cc : CharClasses) (pid : Nat) :
    ∀ (l : List Page) (idx : Nat) (disk disk' : List Seg),
      (classicLoop force minChars cc pid l idx disk).1 =
        (classicLoop force minChars cc pid l idx disk').1 := by
  intro l
  induction l with
  | nil => intro idx d d'; rfl
  | cons pg rest ih =>
    intro idx d d'
    unfold classicLoop
    simp only [classicPage_res, classicPage_disk]
    cases hres : pageRes force minChars cc pg with
    | error m => rfl
    | ok trip =>
      obtain ⟨meth, txt, ed⟩ := trip
      rcases h1 : classicLoop force minChars cc pid rest (idx + 1) d with ⟨r1, d1⟩
      rcases h2 : classicLoop force minChars cc pid rest (idx + 1) d' with ⟨r2, d2⟩
      have hr : r1 = r2 := by
        have hih := ih (idx + 1) d d'
        rw [h1, h2] at hih
        exact hih
      subst hr
      cases r1 with
      | error m => rfl
      | ok pr =>
        rcases pr with ⟨ts, os⟩
        rfl

lemma ocr_pdf_file_res_disk (force : Bool) (minChars : Nat) (cc : CharClasses) (pid : Nat)
    (doc : Except (List Char) (List Page)) (disk disk' : List Seg) :
    (ocr_pdf_file force minChars cc pid doc disk).1 =
      (ocr_pdf_file force minChars cc pid doc disk').1 := by
  cases doc with
  | error m => rfl
  | ok pages =>
    have hred : ∀ dsk : List Seg, ocr_pdf_file force minChars cc pid (.ok pages) dsk =
        (match classicLoop force minChars cc pid pages 0 dsk with
          | (.error m, dk) => (DocResult.err m, dk)
          | (.ok (texts, outs), dk) =>
            (DocResult.ok pages.length (joinBlank texts) outs, dk)) := fun _ => rfl
    rw [hred, hred]
    rcases h1 : classicLoop force minChars cc pid pages 0 disk with ⟨r1, d1⟩
    rcases h2 : classicLoop force minChars cc pid pages 0 disk' with ⟨r2, d2⟩
    have hr : r1 = r2 := by
      have hih := classicLoop_res_disk force minChars cc pid pages 0 disk disk'
      rw [h1, h2] at hih
      exact hih
    subst hr
    cases r1 with
    | error m => rfl
    | ok pr =>
      rcases pr with ⟨ts, os⟩
      rfl

/-- Does processing the document at path d end in the document-level error
dict (fitz.open failed or a page raised out of the loop)? -/
def docFails (force : Bool) (minChars : Nat) (cc : CharClasses) (pid : Nat)
    (oracle : FPath → Except (List Char) (List Page)) (d : FPath) : Bool :=
  match (ocr_pdf_file force minChars cc pid (oracle d) []).1 with
  | .err _ => true
  | .ok _ _ _ => false

lemma rel_ne_nil (root p : FPath) (h : root.length < p.length) :
    p.drop root.length ≠ [] := by
  intro hh
  have hlen := congrArg List.length hh
  rw [List.length_drop] at hlen
  simp only [List.length_nil] at hlen
  omega

lemma lastSeg_append_of_ne_nil (l₁ l₂ : FPath) (h : l₂ ≠ []) :
    lastSeg (l₁ ++ l₂) = lastSeg l₂ := by
  unfold lastSeg
  rw [List.getLastD_eq_getLast?, List.getLastD_eq_getLast?,
    List.getLast?_append_of_ne_nil _ h]

lemma lastSeg_rel (root p : FPath) (h1 : isUnder root p = true)
    (h2 : root.length < p.length) : lastSeg (p.drop root.length) = lastSeg p := by
  conv_rhs => rw [← isUnder_recover root p h1]
  rw [lastSeg_append_of_ne_nil _ _ (rel_ne_nil root p h2)]

lemma classicStep_excl (force : Bool) (minChars : Nat) (cc : CharClasses) (pid : Nat)
    (oracle : FPath → Except (List Char) (List Page)) (root d : FPath)
    (hd1 : isUnder root d = true) (hd2 : root.length < d.length)
    (hd3 : hasTail (lastSeg d) pdfExt = true)
    (st : FS × List Seg) (p : FPath)
    (hp1 : isUnder root p = true) (hp2 : root.length < p.length)
    (hp3 : hasTail (lastSeg p) pdfExt = true)
    (hinv : (st.1.hasFile (errPath root (d.drop root.length)) = true →
        docFails force minChars cc pid oracle d = true) ∧
      (st.1.hasFile (outPath root (d.drop root.length)) = true →
        docFails force minChars cc pid oracle d = false)) :
    ((classicStep force minChars cc pid oracle root st p).2.1.hasFile
        (errPath root (d.drop root.length)) = true →
      docFails force minChars cc pid oracle d = true) ∧
      ((classicStep force minChars cc pid oracle root st p).2.1.hasFile
          (outPath root (d.drop root.length)) = true →
        docFails force minChars cc pid oracle d = false) := by
  have hrelp_ne : p.drop root.length ≠ [] := rel_ne_nil root p hp2
  have hreld_ne : d.drop root.length ≠ [] := rel_ne_nil root d hd2
  have hrelp_tail : hasTail (lastSeg (p.drop root.length)) pdfExt = true := by
    rw [lastSeg_rel root p hp1 hp2]
    exact hp3
  have hreld_tail : hasTail (lastSeg (d.drop root.length)) pdfExt = true := by
    rw [lastSeg_rel root d hd1 hd2]
    exact hd3
  unfold classicStep
  dsimp only
  split
  · constructor
    · intro hh
      rw [FS.hasFile_mkdirp] at hh
      exact hinv.1 hh
    · intro hh
      rw [FS.hasFile_mkdirp] at hh
      exact hinv.2 hh
  · rcases hdp : ocr_pdf_file force minChars cc pid (oracle p) st.2 with ⟨res, disk'⟩
    cases res with
    | err m =>
      by_cases hqe : errPath root (p.drop root.length) = errPath root (d.drop root.length)
      · have hrel := errPath_inj root _ _ hrelp_ne hreld_ne hrelp_tail hreld_tail hqe
        have hpd : p = d := by
          have e1 := isUnder_recover root p hp1
          have e2 := isUnder_recover root d hd1
          rw [← e1, ← e2, hrel]
        subst hpd
        have hfail : docFails force minChars cc pid oracle p = true := by
          unfold docFails
          have hdsk := ocr_pdf_file_res_disk force minChars cc pid (oracle p) [] st.2
          rw [hdsk, hdp]
        constructor
        · intro _
          exact hfail
        · intro hout
          rw [FS.hasFile_write_ne _ _ _ _ (outPath_ne_errPath root _ _),
            FS.hasFile_mkdirp] at hout
          have hff := hinv.2 hout
          rw [hfail] at hff
          exact absurd hff (by decide)
      · constructor
        · intro hh
          rw [FS.hasFile_write_ne _ _ _ _ (fun hx => hqe hx.symm),
            FS.hasFile_mkdirp] at hh
          exact hinv.1 hh
        · intro hh
          rw [FS.hasFile_write_ne _ _ _ _ (outPath_ne_errPath root _ _),
            FS.hasFile_mkdirp] at hh
          exact hinv.2 hh
    | ok n txt pages =>
      by_cases hqe : outPath root (p.drop root.length) = outPath root (d.drop root.length)
      · have hrel := outPath_inj root _ _ hrelp_ne hreld_ne hrelp_tail hreld_tail hqe
        have hpd : p = d := by
          have e1 := isUnder_recover root p hp1
          have e2 := isUnder_recover root d hd1
          rw [← e1, ← e2, hrel]
        subst hpd
        have hok : docFails force minChars cc pid oracle p = false := by
          unfold docFails
          have hdsk := ocr_pdf_file_res_disk force minChars cc pid (oracle p) [] st.2
          rw [hdsk, hdp]
        constructor
        · intro herr2
          rw [FS.hasFile_write_ne _ _ _ _ (fun hx => outPath_ne_errPath root _ _ hx.symm),
            FS.hasFile_mkdirp] at herr2
          have hff := hinv.1 herr2
          rw [hok] at hff
          exact absurd hff (by decide)
        · intro _
          exact hok
      · constructor
        · intro hh
          rw [FS.hasFile_write_ne _ _ _ _ (fun hx => outPath_ne_errPath root _ _ hx.symm),
            FS.hasFile_mkdirp] at hh
          exact hinv.1 hh
        · intro hh
          rw [FS.hasFile_write_ne _ _ _ _ (fun hx => hqe hx.symm),
            FS.hasFile_mkdirp] at hh
          exact hinv.2 hh

lemma classicGo_excl (force : Bool) (minChars : Nat) (cc : CharClasses) (pid : Nat)
    (oracle : FPath → Except (List Char) (List Page)) (root d : FPath)
    (hd1 : isUnder root d = true) (hd2 : root.length < d.length)
    (hd3 : hasTail (lastSeg d) pdfExt = true) :
    ∀ (l : List FPath) (st : FS × List Seg),
      (∀ p ∈ l, isUnder root p = true ∧ root.length < p.length ∧
        hasTail (lastSeg p) pdfExt = true) →
      ((st.1.hasFile (errPath root (d.drop root.length)) = true →
          docFails force minChars cc pid oracle d = true) ∧
        (st.1.hasFile (outPath root (d.drop root.length)) = true →
          docFails force minChars cc pid oracle d = false)) →
      (((classicGo force minChars cc pid oracle root l st).2.1.hasFile
          (errPath root (d.drop root.length)) = true →
        docFails force minChars cc pid oracle d = true) ∧
        ((classicGo force minChars cc pid oracle root l st).2.1.hasFile
            (outPath root (d.drop root.length)) = true →
          docFails force minChars cc pid oracle d = false)) := by
  intro l
  induction l with
  | nil => intro st _ hinv; exact hinv
  | cons pdf rest ih =>
    intro st hl hinv
    rw [classicGo_cons]
    have hp := hl pdf (List.mem_cons_self _ _)
    exact ih _ (fun q hq => hl q (List.mem_cons_of_mem _ hq))
      (classicStep_excl force minChars cc pid oracle root d hd1 hd2 hd3 st pdf
        hp.1 hp.2.1 hp.2.2 hinv)

/-- C8 (amended): within a single classic batch run starting from a tree that
contains neither artifact for a document, the run never ends with both the
document's _ocr.txt and its _ERROR.txt present: exactly one of the two is
written depending on whether processing fails.  (Across runs the invariant can
break, because the error artifact is never deleted: see the counterexample.) -/
theorem claimC8 (force : Bool) (minChars : Nat) (cc : CharClasses) (pid : Nat)
    (oracle : FPath → Except (List Char) (List Page)) (root : FPath)
    (fs : FS) (disk : List Seg) (d : FPath)
    (hd : d ∈ list_pdf_files (fs.mkdirp (root ++ [seg "ocr_results"])) root)
    (hout : fs.hasFile (outPath root (d.drop root.length)) = false)
    (herr : fs.hasFile (errPath root (d.drop root.length)) = false) :
    ¬((ocr_all_pdfs force minChars cc pid oracle root fs disk).2.1.hasFile
        (outPath root (d.drop root.length)) = true ∧
      (ocr_all_pdfs force minChars cc pid oracle root fs disk).2.1.hasFile
        (errPath root (d.drop root.length)) = true) := by
  obtain ⟨hd1, hd2, hd3⟩ := mem_list_pdf_files _ _ _ hd
  have hrun : ocr_all_pdfs force minChars cc pid oracle root fs disk =
      classicGo force minChars cc pid oracle root
        (list_pdf_files (fs.mkdirp (root ++ [seg "ocr_results"])) root)
        (fs.mkdirp (root ++ [seg "ocr_results"]), disk) := rfl
  have hinv0 : ((fs.mkdirp (root ++ [seg "ocr_results"])).hasFile
        (errPath root (d.drop root.length)) = true →
      docFails force minChars cc pid oracle d = true) ∧
      ((fs.mkdirp (root ++ [seg "ocr_results"])).hasFile
          (outPath root (d.drop root.length)) = true →
        docFails force minChars cc pid oracle d = false) := by
    constructor
    · intro hh
      rw [FS.hasFile_mkdirp, herr] at hh
      exact absurd hh (by decide)
    · intro hh
      rw [FS.hasFile_mkdirp, hout] at hh
      exact absurd hh (by decide)
  have hgo := classicGo_excl force minChars cc pid oracle root d hd1 hd2 hd3
    (list_pdf_files (fs.mkdirp (root ++ [seg "ocr_results"])) root)
    (fs.mkdirp (root ++ [seg "ocr_results"]), disk)
    (fun q hq => mem_list_pdf_files _ _ _ hq) hinv0
  rintro ⟨h1, h2⟩
  rw [hrun] at h1 h2
  have t1 := hgo.1 h2
  have t2 := hgo.2 h1
  rw [t1] at t2
  exact absurd t2 (by decide)

/-- C8 counterexample: a document that fails in one run (its _ERROR.txt is
written) and succeeds in a later run (its _ocr.txt is written, the error
artifact never being deleted) leaves both artifacts in the mirrored tree. -/
theorem claimC8_counterexample :
    (ocr_all_pdfs false 300 asciiClasses 0 (fun _ => .ok []) [seg "r"]
        (ocr_all_pdfs false 300 asciiClasses 0 (fun _ => .error (seg "io")) [seg "r"]
          ⟨[([seg "r", seg "a.pdf"], [])], [[seg "r"]]⟩ []).2.1 []).2.1.hasFile
      [seg "r", seg "ocr_results", seg "a_ocr.txt"] = true ∧
      (ocr_all_pdfs false 300 asciiClasses 0 (fun _ => .ok []) [seg "r"]
          (ocr_all_pdfs false 300 asciiClasses 0 (fun _ => .error (seg "io")) [seg "r"]
            ⟨[([seg "r", seg "a.pdf"], [])], [[seg "r"]]⟩ []).2.1 []).2.1.hasFile
        [seg "r", seg "ocr_results", seg "a_ERROR.txt"] = true := by
  exact ⟨by decide, by decide⟩

theorem claimC8_witness :
    ([seg "r", seg "a.pdf"] ∈ list_pdf_files
        ((⟨[([seg "r", seg "a.pdf"], [])], [[seg "r"]]⟩ : FS).mkdirp
          ([seg "r"] ++ [seg "ocr_results"])) [seg "r"]) ∧
      ((⟨[([seg "r", seg "a.pdf"], [])], [[seg "r"]]⟩ : FS).hasFile
        (outPath [seg "r"] ([seg "r", seg "a.pdf"].drop 1)) = false) ∧
      ((⟨[([seg "r", seg "a.pdf"], [])], [[seg "r"]]⟩ : FS).hasFile
        (errPath [seg "r"] ([seg "r", seg "a.pdf"].drop 1)) = false) ∧
      ¬((ocr_all_pdfs false 300 asciiClasses 0 (fun _ => .ok []) [seg "r"]
          ⟨[([seg "r", seg "a.pdf"], [])], [[seg "r"]]⟩ []).2.1.hasFile
            (outPath [seg "r"] ([seg "r", seg "a.pdf"].drop 1)) = true ∧
        (ocr_all_pdfs false 300 asciiClasses 0 (fun _ => .ok []) [seg "r"]
            ⟨[([seg "r", seg "a.pdf"], [])], [[seg "r"]]⟩ []).2.1.hasFile
          (errPath [seg "r"] ([seg "r", seg "a.pdf"].drop 1)) = true) :=
  ⟨by decide, by decide, by decide,
    claimC8 false 300 asciiClasses 0 (fun _ => .ok []) [seg "r"]
      ⟨[([seg "r", seg "a.pdf"], [])], [[seg "r"]]⟩ [] [seg "r", seg "a.pdf"]
      (by decide) (by decide) (by decide)⟩

lemma structText_txt_off (force : Bool) (cc : CharClasses) (pg : Page2)
    (writes : List Seg) (img : Seg) (disk : List Seg) :
    (structText force false cc pg writes img disk).res = .ok (writes, none) := rfl

lemma structPage_txt_off (force exportJson exportMd : Bool) (cc : CharClasses)
    (pid idx : Nat) (pg : Page2) (disk : List Seg)
    (hr : pg.rasterErr = none)
    (hs : (exportJson || exportMd) = true → ∃ names, pg.structCall = .lines names) :
    ∃ w, (structPage force false exportJson exportMd cc pid idx pg disk).res =
      .ok (w, none) := by
  rcases pg with ⟨emb, rErr, sc, oc⟩
  simp only at hr
  subst hr
  unfold structPage
  dsimp only
  by_cases hjm : (exportJson || exportMd) = true
  · obtain ⟨names, hsc⟩ := hs hjm
    simp only at hsc
    subst hsc
    rw [if_pos hjm]
    exact ⟨structArtifacts exportJson exportMd names, structText_txt_off force cc _ _ _ _⟩
  · rw [if_neg hjm]
    exact ⟨[], structText_txt_off force cc _ _ _ _⟩

lemma structLoop_txt_off (force exportJson exportMd : Bool) (cc : CharClasses) (pid : Nat) :
    ∀ (l : List Page2) (idx : Nat) (disk : List Seg),
      (∀ pg ∈ l, pg.rasterErr = none ∧
        ((exportJson || exportMd) = true → ∃ names, pg.structCall = .lines names)) →
      ∃ ws, (structLoop force false exportJson exportMd cc pid l idx disk).1 =
        .ok ([], [], ws) := by
  intro l
  induction l with
  | nil => intro idx disk _; exact ⟨[], rfl⟩
  | cons pg rest ih =>
    intro idx disk h
    have hpg := h pg (List.mem_cons_self _ _)
    obtain ⟨w, hw⟩ := structPage_txt_off force exportJson exportMd cc pid idx pg disk
      hpg.1 hpg.2
    unfold structLoop
    simp only [structPage_disk]
    rw [hw]
    obtain ⟨ws, hws⟩ := ih (idx + 1) disk (fun q hq => h q (List.mem_cons_of_mem _ hq))
    rcases hsplit : structLoop force false exportJson exportMd cc pid rest (idx + 1) disk
      with ⟨res', disk'⟩
    rw [hsplit] at hws
    have h2 : res' = .ok ([], [], ws) := hws
    subst h2
    exact ⟨w ++ ws, rfl⟩

lemma process_pdf_txt_off (force exportJson exportMd : Bool) (cc : CharClasses) (pid : Nat)
    (pgs : List Page2) (disk : List Seg)
    (h : ∀ pg ∈ pgs, pg.rasterErr = none ∧
      ((exportJson || exportMd) = true → ∃ names, pg.structCall = .lines names)) :
    ∃ w, (process_pdf force false exportJson exportMd cc pid (.ok pgs) disk).1 =
      .ok pgs.length [] [] w := by
  obtain ⟨ws, hws⟩ := structLoop_txt_off force exportJson exportMd cc pid pgs 0 disk h
  have hred : process_pdf force false exportJson exportMd cc pid (.ok pgs) disk =
      (match structLoop force false exportJson exportMd cc pid pgs 0 disk with
        | (.error (m, w), disk') => (DocResult2.err m w, disk')
        | (.ok (texts, outs, ws2), disk') =>
          (DocResult2.ok pgs.length (joinBlank texts) outs ws2, disk')) := rfl
  rw [hred]
  rcases hsplit : structLoop force false exportJson exportMd cc pid pgs 0 disk
    with ⟨res', disk'⟩
  rw [hsplit] at hws
  have h2 : res' = .ok ([], [], ws) := hws
  subst h2
  exact ⟨ws, rfl⟩

lemma append_cons_ne (root : FPath) (x y : Seg) (u v : FPath) (hxy : x ≠ y) :
    root ++ x :: u ≠ root ++ y :: v := by
  intro h
  have h2 := List.append_cancel_left h
  injection h2 with h1 _
  exact hxy h1

lemma structWrite_ne_outPath (root relp reld : FPath) (nm : Seg) :
    structDir root relp ++ [nm] ≠ outPath root reld := by
  unfold structDir outPath
  simp only [List.append_assoc, List.singleton_append]
  exact append_cons_ne root _ _ _ _ (by decide)

lemma applyStructWrites_hasFile_false (dir : FPath) (q : FPath)
    (hq : ∀ nm, dir ++ [nm] ≠ q) :
    ∀ (w : List Seg) (fs : FS), fs.hasFile q = false →
      (applyStructWrites fs dir w).hasFile q = false := by
  intro w
  induction w with
  | nil => intro fs h; exact h
  | cons nm rest ih =>
    intro fs h
    unfold applyStructWrites
    rw [List.foldl_cons]
    have hstep : (fs.write (dir ++ [nm]) []).hasFile q = false := by
      rw [FS.hasFile_write_ne _ _ _ _ (fun hx => hq nm hx.symm)]
      exact h
    exact ih (fs.write (dir ++ [nm]) []) hstep

lemma structStep_no_out (force exportJson exportMd : Bool) (cc : CharClasses) (pid : Nat)
    (oracle2 : FPath → Except (List Char) (List Page2)) (root : FPath)
    (st : FS × List Seg) (p d : FPath)
    (h : st.1.hasFile (outPath root (d.drop root.length)) = false) :
    (structStep force false exportJson exportMd cc pid oracle2 root st p).2.1.hasFile
      (outPath root (d.drop root.length)) = false := by
  unfold structStep
  dsimp only
  have hmk : FS.hasFile
      (((st.1.mkdirp (outPath root (p.drop root.length)).dropLast).mkdirp
        (root ++ [seg "doc_results"] ++ (p.drop root.length).dropLast)).mkdirp
        (structDir root (p.drop root.length)))
      (outPath root (d.drop root.length)) = false := by
    rw [FS.hasFile_mkdirp, FS.hasFile_mkdirp, FS.hasFile_mkdirp]
    exact h
  rcases hd2 : process_pdf force false exportJson exportMd cc pid (oracle2 p) st.2
    with ⟨res, disk'⟩
  cases res with
  | err m w =>
    rw [FS.hasFile_write_ne _ _ _ _
      (fun hx => outPath_ne_errPath root (d.drop root.length) (p.drop root.length) hx)]
    exact applyStructWrites_hasFile_false _ _
      (fun nm => structWrite_ne_outPath root (p.drop root.length) (d.drop root.length) nm)
      w _ hmk
  | ok n txt pages w =>
    dsimp only
    rw [if_neg (by simp : ¬((false : Bool) = true))]
    exact applyStructWrites_hasFile_false _ _
      (fun nm => structWrite_ne_outPath root (p.drop root.length) (d.drop root.length) nm)
      w _ hmk

lemma structStep_entry_ok (force exportJson exportMd : Bool) (cc : CharClasses) (pid : Nat)
    (oracle2 : FPath → Except (List Char) (List Page2)) (root : FPath)
    (st : FS × List Seg) (d : FPath) (pgs : List Page2)
    (hdoc : oracle2 d = .ok pgs)
    (hconds : ∀ pg ∈ pgs, pg.rasterErr = none ∧
      ((exportJson || exportMd) = true → ∃ names, pg.structCall = .lines names)) :
    (structStep force false exportJson exportMd cc pid oracle2 root st d).1 =
      .ok (d.drop root.length) pgs.length := by
  unfold structStep
  dsimp only
  obtain ⟨w, hw⟩ := process_pdf_txt_off force exportJson exportMd cc pid pgs st.2 hconds
  rw [← hdoc] at hw
  rcases hsplit : process_pdf force false exportJson exportMd cc pid (oracle2 d) st.2
    with ⟨res, disk'⟩
  rw [hsplit] at hw
  have h2 : res = .ok pgs.length [] [] w := hw
  subst h2
  rfl

lemma structGo_txt_off (force exportJson exportMd : Bool) (cc : CharClasses) (pid : Nat)
    (oracle2 : FPath → Except (List Char) (List Page2)) (root d : FPath)
    (pgs : List Page2) (hdoc : oracle2 d = .ok pgs)
    (hconds : ∀ pg ∈ pgs, pg.rasterErr = none ∧
      ((exportJson || exportMd) = true → ∃ names, pg.structCall = .lines names)) :
    ∀ (l : List FPath) (st : FS × List Seg),
      st.1.hasFile (outPath root (d.drop root.length)) = false →
      (structGo force false exportJson exportMd cc pid oracle2 root l st).2.1.hasFile
          (outPath root (d.drop root.length)) = false ∧
        (d ∈ l → SEntry.ok (d.drop root.length) pgs.length ∈
          (structGo force false exportJson exportMd cc pid oracle2 root l st).1) := by
  intro l
  induction l with
  | nil =>
    intro st h
    exact ⟨h, fun hmem => absurd hmem (List.not_mem_nil d)⟩
  | cons p rest ih =>
    intro st h
    rw [structGo_cons]
    have hpres := structStep_no_out force exportJson exportMd cc pid oracle2 root st p d h
    obtain ⟨hfs, hmem⟩ := ih _ hpres
    refine ⟨hfs, ?_⟩
    intro hd
    rcases List.mem_cons.mp hd with rfl | hmem2
    · rw [structStep_entry_ok force exportJson exportMd cc pid oracle2 root st d pgs
        hdoc hconds]
      exact List.mem_cons_self _ _
    · exact List.mem_cons_of_mem _ (hmem hmem2)

/-- C10: in the structured batch with the plain-text export option disabled,
a document that processes successfully has an empty per-page outcome list and
empty aggregated text, no text artifact is written for it, and the run summary
still records an OK entry with its page count. -/
theorem claimC10 (force exportJson exportMd : Bool) (cc : CharClasses) (pid : Nat)
    (oracle2 : FPath → Except (List Char) (List Page2)) (root : FPath)
    (fs : FS) (disk : List Seg) (d : FPath) (pgs : List Page2)
    (hdoc : oracle2 d = .ok pgs)
    (hraster : ∀ pg ∈ pgs, pg.rasterErr = none)
    (hstruct : (exportJson || exportMd) = true →
      ∀ pg ∈ pgs, ∃ names, pg.structCall = .lines names)
    (hd : d ∈ list_pdf_files
      ((fs.mkdirp (root ++ [seg "ocr_results"])).mkdirp (root ++ [seg "doc_results"])) root)
    (hout : fs.hasFile (outPath root (d.drop root.length)) = false) :
    (∃ w, (process_pdf force false exportJson exportMd cc pid (oracle2 d) disk).1 =
        .ok pgs.length [] [] w) ∧
      SEntry.ok (d.drop root.length) pgs.length ∈
        (run_batch force false exportJson exportMd cc pid oracle2 root fs disk).1 ∧
      (run_batch force false exportJson exportMd cc pid oracle2 root fs disk).2.1.hasFile
        (outPath root (d.drop root.length)) = false := by
  have hconds : ∀ pg ∈ pgs, pg.rasterErr = none ∧
      ((exportJson || exportMd) = true → ∃ names, pg.structCall = .lines names) :=
    fun pg hp => ⟨hraster pg hp, fun hjm => hstruct hjm pg hp⟩
  have hrun : run_batch force false exportJson exportMd cc pid oracle2 root fs disk =
      structGo force false exportJson exportMd cc pid oracle2 root
        (list_pdf_files
          ((fs.mkdirp (root ++ [seg "ocr_results"])).mkdirp (root ++ [seg "doc_results"]))
          root)
        ((fs.mkdirp (root ++ [seg "ocr_results"])).mkdirp (root ++ [seg "doc_results"]),
          disk) := rfl
  have h0 : ((fs.mkdirp (root ++ [seg "ocr_results"])).mkdirp
      (root ++ [seg "doc_results"])).hasFile (outPath root (d.drop root.length)) = false := by
    rw [FS.hasFile_mkdirp, FS.hasFile_mkdirp]
    exact hout
  obtain ⟨hfs, hmem⟩ := structGo_txt_off force exportJson exportMd cc pid oracle2 root d
    pgs hdoc hconds
    (list_pdf_files ((fs.mkdirp (root ++ [seg "ocr_results"])).mkdirp
      (root ++ [seg "doc_results"])) root)
    ((fs.mkdirp (root ++ [seg "ocr_results"])).mkdirp (root ++ [seg "doc_results"]), disk)
    h0
  refine ⟨?_, ?_, ?_⟩
  · rw [hdoc]
    exact process_pdf_txt_off force exportJson exportMd cc pid pgs disk hconds
  · rw [hrun]
    exact hmem hd
  · rw [hrun]
    exact hfs

theorem claimC10_witness :
    ((fun _ => (.ok [] : Except (List Char) (List Page2))) [seg "r", seg "a.pdf"] =
        .ok []) ∧
      ([seg "r", seg "a.pdf"] ∈ list_pdf_files
        (((⟨[([seg "r", seg "a.pdf"], [])], [[seg "r"]]⟩ : FS).mkdirp
          ([seg "r"] ++ [seg "ocr_results"])).mkdirp ([seg "r"] ++ [seg "doc_results"]))
        [seg "r"]) ∧
      ((⟨[([seg "r", seg "a.pdf"], [])], [[seg "r"]]⟩ : FS).hasFile
        (outPath [seg "r"] ([seg "r", seg "a.pdf"].drop 1)) = false) ∧
      ((∃ w, (process_pdf false false false false asciiClasses 0
          ((fun _ => (.ok [] : Except (List Char) (List Page2))) [seg "r", seg "a.pdf"])
          []).1 = .ok ([] : List Page2).length [] [] w) ∧
        SEntry.ok ([seg "r", seg "a.pdf"].drop 1) ([] : List Page2).length ∈
          (run_batch false false false false asciiClasses 0
            (fun _ => (.ok [] : Except (List Char) (List Page2))) [seg "r"]
            ⟨[([seg "r", seg "a.pdf"], [])], [[seg "r"]]⟩ []).1 ∧
        (run_batch false false false false asciiClasses 0
            (fun _ => (.ok [] : Except (List Char) (List Page2))) [seg "r"]
            ⟨[([seg "r", seg "a.pdf"], [])], [[seg "r"]]⟩ []).2.1.hasFile
          (outPath [seg "r"] ([seg "r", seg "a.pdf"].drop 1)) = false) :=
  ⟨rfl, by decide, by decide,
    claimC10 false false false asciiClasses 0
      (fun _ => (.ok [] : Except (List Char) (List Page2))) [seg "r"]
      ⟨[([seg "r", seg "a.pdf"], [])], [[seg "r"]]⟩ [] [seg "r", seg "a.pdf"] []
      rfl (fun pg hp => absurd hp (List.not_mem_nil pg))
      (fun _ pg hp => absurd hp (List.not_mem_nil pg))
      (by decide) (by decide)⟩
